import Mathlib

set_option maxHeartbeats 1000000

/-
Shallow embedding of the StaticTestPlatform firmware and proofs about it.

The repository contains three near-duplicate variants of the same rocket
test stand controller:
  - an ESP32 dual-transport variant (combinedSD.ino, first document):
    functions initSDCard, st, sp, cl, cc, ts, cm, loop, gn;
  - a wired-only Arduino variant (combinedSD.ino, second document):
    setup, startMeasurement, stopMeasurement, calibrate,
    changeSavedCalFactor, testSDCard, processCommand, loop, getFileName;
  - a Bluetooth Arduino variant (src/unnamed/part_000): the same functions
    duplicated for two channels plus a btEnabled toggle.

Pure data is embedded directly; hardware and filesystem effects are made
explicit: fallible storage operations take boolean outcome parameters,
the byte streams an interactive wizard will consume are passed as explicit
token lists, and floating point values whose only role in the claims is
ordering and equality are modelled as rationals.
-/

/-- A persisted 32-bit float slot: either a NaN bit pattern (an erased AVR
EEPROM reads back as all ones, which decodes to NaN) or an ordinary numeric
value, modelled as a rational. -/
inductive FVal where
  | nan : FVal
  | val : ℚ → FVal
deriving DecidableEq, Repr

/-- The default calibration factor 217.84 used by every variant. -/
def defaultCal : ℚ := 21784 / 100

/-- combinedSD.ino line 98 (ESP32 variant):
float calFactor = p.getFloat("c", 217.84).
NVS getFloat returns the stored value whenever the key exists, including a
stored zero or NaN, and returns the supplied default only when the key is
absent. -/
def esp32LoadCal (stored : Option FVal) : FVal :=
  match stored with
  | none => FVal.val defaultCal
  | some v => v

/-- combinedSD.ino lines 500-506 (wired Arduino variant):
EEPROM.get(calVal_eepromAdress, calibrationValue);
if (isnan(calibrationValue) or calibrationValue == 0) use 217.84. -/
def arduinoLoadCal (stored : FVal) : ℚ :=
  match stored with
  | FVal.nan => defaultCal
  | FVal.val q => if q = 0 then defaultCal else q

/-
Sampling-cadence core of loop() (combinedSD.ino lines 115-123 and 543-550,
part_000 lines 155-162): a new-data latch nd and the time tm of the last
emitted sample; a sample fires when the latch is set and
millis() > tm + 20.  The loop body is modelled at a one-iteration-per-
millisecond granularity: iteration at time t first latches a fresh reading
(lc.update()), then fires when nd and t > tm + 20.
-/

/-- State of the sampling-loop timing core: the static nd latch and the
last-emission time tm. -/
structure LoopTm where
  nd : Bool
  tm : Nat
deriving DecidableEq, Repr

/-- Run the sampling-loop timing core from state s starting at time t over a
list of per-iteration ready flags (one iteration per millisecond); returns
the list of emission times. -/
def lrun (s : LoopTm) (t : Nat) : List Bool → List Nat
  | [] => []
  | r :: rs =>
    if (s.nd || r) = true ∧ s.tm + 20 < t then
      t :: lrun ⟨false, t⟩ (t + 1) rs
    else
      lrun ⟨s.nd || r, s.tm⟩ (t + 1) rs

/-- A ready-signal pattern: a iterations of quiet, one ready, then b
iterations of quiet. -/
def chunk (a b : Nat) : List Bool :=
  List.replicate a false ++ true :: List.replicate b false

/-- Concatenate ready chunks into a full input timeline. -/
def chunksInput : List (Nat × Nat) → List Bool
  | [] => []
  | c :: cs => chunk c.1 c.2 ++ chunksInput cs

/-
Filesystem model shared by all variants.  File names are an inductive type
keyed by the integer index of the sequential data files; contents are the
concatenated text written to the file.
-/

/-- File names appearing in the firmware: the sequential ESP32 data files
/T<n>.CSV (gn), the ESP32 self-test file /test.txt, the sequential Arduino
data files TEST<n>.CSV (getFileName), and the Arduino self-test file
TEST_SD.TXT. -/
inductive FName where
  | tcsv : Nat → FName
  | testTxt : FName
  | testCsv : Nat → FName
  | testSd : FName
deriving DecidableEq, Repr

/-- The storage medium: an association list from file name to content. -/
abbrev FS := List (FName × String)

/-- SD.exists. -/
def fexists (fs : FS) (n : FName) : Bool :=
  fs.any (fun p => decide (p.1 = n))

/-- Content of a file (empty string when the file is missing). -/
def getF (fs : FS) (n : FName) : String :=
  (((fs.find? (fun p => decide (p.1 = n))).map Prod.snd).getD "")

/-- Create or truncate a file with the given content (ESP32 FILE_WRITE
semantics: mode "w"). -/
def setF (fs : FS) (n : FName) (content : String) : FS :=
  (n, content) :: fs.filter (fun p => !(decide (p.1 = n)))

/-- Append text to a file, creating it when missing (AVR SD FILE_WRITE opens
with O_APPEND; also used for writes through an open handle). -/
def appendF (fs : FS) (n : FName) (text : String) : FS :=
  setF fs n (getF fs n ++ text)

/-- SD.remove. -/
def removeF (fs : FS) (n : FName) : FS :=
  fs.filter (fun p => !(decide (p.1 = n)))

/-- The CR LF pair that println appends. -/
def crlf : String := "\r\n"

/-- One operator input token: a single command/answer byte, or one numeric
entry as consumed in one Stream::parseFloat call.  Serial.read on a numeric
entry would return its first digit byte; that corner is modelled by readTok
returning the placeholder byte 0, and parseFloat applied to a lone command
byte finds no digits and times out returning 0, exactly as Arduino
Stream::parseFloat does. -/
inductive Tok where
  | ch : Char → Tok
  | num : ℚ → Tok
deriving DecidableEq, Repr

/-- Serial.read of one token. -/
def readTok : Tok → Char
  | Tok.ch c => c
  | Tok.num _ => '0'

/-- Stream::parseFloat of one token. -/
def parseTok : Tok → ℚ
  | Tok.num q => q
  | Tok.ch _ => 0

namespace ESP

/-
ESP32 dual-transport variant, combinedSD.ino lines 1-415.  Globals:
bool run, sd, bt_on, plot; byte m; int fn; char fn_buf[13]; File df;
plus the NVS-persisted calibration key "c" and the live HX711 factor.
-/

/-- ESP32 global state. -/
structure ESt where
  run : Bool
  m : Nat
  sd : Bool
  bt_on : Bool
  plot : Bool
  fn : Nat
  fn_buf : FName
  df : Option FName
  calFactor : ℚ
  prefsC : Option ℚ
  files : FS
  flushC : Nat
deriving DecidableEq, Repr

/-- Observable actions of one step: a console write (serial copy flag,
bluetooth copy flag, text), and the storage operations on the data log. -/
inductive Act where
  | out : Bool → Bool → String → Act
  | fsRemove : FName → Act
  | openLog : FName → Act
  | closeLog : Act
  | append : FName → String → Act
  | flush : Act
deriving DecidableEq, Repr

/-- log_msg (lines 31-34): println to Serial always and to bt when bt_on. -/
def bc (s : ESt) (msg : String) : Act := Act.out true s.bt_on msg

/-- gn (lines 411-415): sprintf "/T%d.CSV". -/
def gn (n : Nat) : FName := FName.tcsv n

/-- The scan while(SD.exists(gn(fn))) fn++ of initSDCard (line 71), with
fuel: among fn .. fn + fs.length at least one name is unused, so
fs.length + 1 steps always reach the first unused index. -/
def probeFrom : Nat → Nat → FS → Nat
  | 0, k, _ => k
  | fuel + 1, k, fs => if fexists fs (gn k) then probeFrom fuel (k + 1) fs else k

/-- First unused sequential index at or after k. -/
def probe (k : Nat) (fs : FS) : Nat := probeFrom (fs.length + 1) k fs

/-- initSDCard (lines 36-75).  mediaOk covers SD.begin(5) succeeding and the
card type being present; on success the next file index is probed. -/
def initSDCard (s : ESt) (mediaOk : Bool) : ESt × List Act :=
  if mediaOk = false then
    ({ s with sd := false },
     [bc s "Initializing SD card...", bc s "SD Card Mount Failed! Check connections"])
  else
    ({ s with sd := true, fn := probe s.fn s.files },
     [bc s "Initializing SD card...", bc s "SD card initialization done.",
      bc s "Next test file announced"])

/-- Outcomes of the fallible storage operations inside st (lines 211-276):
the SD.begin(5) retry, the media state seen by a nested initSDCard, the
SD.open of the data file, the header println, and the diagnostic root-
directory write test. -/
structure StEnv where
  beginOk : Bool
  mediaOk : Bool
  openOk : Bool
  headerOk : Bool
  rootOk : Bool
deriving DecidableEq, Repr

/-- Lines 224-269 of st: build the name from the current counter (no
re-probe), remove a file already present under that name, open, write the
header, and only then increment fn and enter the measuring state.  Assigning
a new File to the global df closes a previously held open file (ESP32 FS
RAII), emitted as closeLog. -/
def stOpen (s : ESt) (e : StEnv) (acc : List Act) : ESt × List Act :=
  let name := gn s.fn
  let s1 := { s with fn_buf := name }
  let acc1 := acc ++ [bc s1 "Creating new test file"]
  let rmArr := if fexists s1.files name then
      ({ s1 with files := removeF s1.files name },
       acc1 ++ [bc s1 "Removing existing file...", Act.fsRemove name])
    else (s1, acc1)
  let s2 := rmArr.1
  let acc2 := rmArr.2
  let closeActs : List Act := if s2.df.isSome then [Act.closeLog] else []
  if e.openOk = false then
    let diag : List Act :=
      if e.rootOk then [bc s2 "Root directory is writable"]
      else [bc s2 "ERROR: Cannot write to root directory!"]
    let files2 := if e.rootOk then removeF s2.files FName.testTxt else s2.files
    ({ s2 with df := none, files := files2 },
     acc2 ++ closeActs ++ [bc s2 "ERROR: Failed to create data file!"] ++ diag)
  else
    let s3 := { s2 with files := setF s2.files name "", df := some name }
    let acc3 := acc2 ++ closeActs ++ [Act.openLog name, bc s3 "Test file created successfully"]
    if e.headerOk = false then
      ({ s3 with df := none },
       acc3 ++ [bc s3 "ERROR: Failed to write header!", Act.closeLog])
    else
      let s4 := { s3 with files := appendF s3.files name ("t,w,f" ++ crlf), fn := s3.fn + 1 }
      ({ s4 with m := 1, run := true },
       acc3 ++ [Act.append name ("t,w,f" ++ crlf), Act.flush, bc s4 "Test started"])

/-- st (lines 211-276): start a test.  With sd set, SD.begin is retried and
on its failure initSDCard is re-run (the only place the index is re-probed);
without sd the test starts without logging. -/
def st (s : ESt) (e : StEnv) : ESt × List Act :=
  if s.sd then
    if e.beginOk = false then
      let ini := initSDCard s e.mediaOk
      if ini.1.sd = false then
        (ini.1, [bc s "WARNING: SD card reinitialization needed"] ++ ini.2 ++
          [bc ini.1 "ERROR: SD card initialization failed!"])
      else
        stOpen ini.1 e ([bc s "WARNING: SD card reinitialization needed"] ++ ini.2)
    else
      stOpen s e []
  else
    ({ s with m := 1, run := true },
     [bc s "WARNING: SD card not available, proceeding without logging",
      bc s "Test started"])

/-- sp (lines 278-289): stop a test, closing the log when one is open. -/
def sp (s : ESt) : ESt × List Act :=
  let s1 := { s with run := false }
  if s1.df.isSome then
    ({ s1 with df := none, m := 0 },
     [Act.closeLog, bc s1 "Test stopped and file saved"])
  else
    ({ s1 with m := 0 }, [bc s1 "Test stopped (no file was open)"])

/-- The mass/factor read shared by cl (line 303-304) and cc (line 337-338):
busy-wait until one channel has input, then parseFloat from Serial when it
has data, else from bt.  Returns none when neither stream ever produces a
byte (the code spins forever). -/
def clMassRead (sIn btIn : List Tok) : Option (ℚ × List Tok × List Tok) :=
  match sIn, btIn with
  | [], [] => none
  | t :: rest, b => some (parseTok t, rest, b)
  | [], t :: rest => some (parseTok t, [], rest)

/-- The accept step of cl (lines 318-327).  The two C++ conditions
(Serial.available() and Serial.read() == y) or (bt.available() and
bt.read() == y), followed by the else-if testing n the same way, are
translated with their exact short-circuit reads: a byte popped by the first
condition is gone when the second runs.  Ends with m = 0 (line 328). -/
def clAccept (sIn btIn : List Tok) (s : ESt) (c : ℚ) (acc : List Act) :
    Option (ESt × List Act) :=
  if sIn.isEmpty && btIn.isEmpty then none
  else
    let firstRead :
        Bool × List Tok × List Tok :=
      match sIn, btIn with
      | c1 :: r1, b =>
        if readTok c1 = 'y' then (true, r1, b)
        else
          match b with
          | c2 :: r2 => (decide (readTok c2 = 'y'), r1, r2)
          | [] => (false, r1, [])
      | [], c2 :: r2 => (decide (readTok c2 = 'y'), [], r2)
      | [], [] => (false, [], [])
    if firstRead.1 then
      some ({ s with calFactor := c, prefsC := some c, m := 0 },
        acc ++ [bc s "New calibration factor saved"])
    else
      let sIn1 := firstRead.2.1
      let btIn1 := firstRead.2.2
      let isN : Bool :=
        match sIn1, btIn1 with
        | c1 :: _, b =>
          if readTok c1 = 'n' then true
          else
            match b with
            | c2 :: _ => decide (readTok c2 = 'n')
            | [] => false
        | [], c2 :: _ => decide (readTok c2 = 'n')
        | [], [] => false
      if isN then some ({ s with m := 0 }, acc ++ [bc s "Calibration cancelled"])
      else some ({ s with m := 0 }, acc)

/-- Environment of one cl run: how many iterations the tare loop spins
before getTareStatus turns true (each iteration consumes one available byte
per channel), and the factor lc.getNewCalibration(ms) computes. -/
structure ClEnv where
  tareIters : Nat
  newCal : ℚ
  sIn : List Tok
  btIn : List Tok
deriving DecidableEq, Repr

/-- cl (lines 291-329): full calibration.  Tare loop, mass entry, proposed
factor, accept step.  A mass entry less than or equal to zero aborts the
whole wizard (lines 305-308) leaving every state field unchanged, m
included. -/
def cl (s : ESt) (e : ClEnv) : Option (ESt × List Act) :=
  let a0 := [bc s "Starting full calibration procedure",
             bc s "Remove all weight and send t when ready"]
  let sIn0 := e.sIn.drop e.tareIters
  let btIn0 := e.btIn.drop e.tareIters
  let a1 := a0 ++ [bc s "Tare complete. Place known weight and enter weight in grams:"]
  match clMassRead sIn0 btIn0 with
  | none => none
  | some (ms, sIn1, btIn1) =>
    if ms ≤ 0 then
      some (s, a1 ++ [bc s "Invalid weight entered, calibration aborted"])
    else
      let a2 := a1 ++ [bc s "Calculating new calibration factor...",
                       bc s "Proposed calibration factor", bc s "Accept? (y/n)"]
      clAccept sIn1 btIn1 s e.newCal a2

/-- cc (lines 331-357): manual calibration.  Reads a factor, rejects a value
at or below zero by aborting, otherwise applies it live at once; the accept
step persists on y and on anything else only prints a cancel message, the
live factor staying at the new value. -/
def cc (s : ESt) (sIn btIn : List Tok) : Option (ESt × List Act) :=
  let a0 := [bc s "Current calibration factor", bc s "Enter new calibration factor:"]
  match clMassRead sIn btIn with
  | none => none
  | some (c, sIn1, btIn1) =>
    if c ≤ 0 then
      some (s, a0 ++ [bc s "Invalid calibration factor, operation cancelled"])
    else
      let s1 := { s with calFactor := c }
      let a1 := a0 ++ [bc s1 "Test new calibration factor. Accept? (y/n)"]
      if sIn1.isEmpty && btIn1.isEmpty then none
      else
        let isY : Bool :=
          match sIn1, btIn1 with
          | c1 :: _, b =>
            if readTok c1 = 'y' then true
            else
              match b with
              | c2 :: _ => decide (readTok c2 = 'y')
              | [] => false
          | [], c2 :: _ => decide (readTok c2 = 'y')
          | [], [] => false
        if isY then
          some ({ s1 with prefsC := some c, m := 0 },
            a1 ++ [bc s1 "New calibration factor saved"])
        else
          some ({ s1 with m := 0 }, a1 ++ [bc s1 "Calibration change cancelled"])

/-- Outcomes of the storage operations of ts. -/
structure TsEnv where
  beginOk : Bool
  openOk : Bool
  readOk : Bool
deriving DecidableEq, Repr

/-- The fixed marker the ESP32 self-test writes. -/
def marker : String := "SD Card Test OK" ++ crlf

/-- ts (lines 359-396): SD self-test.  Writes the marker to /test.txt
(FILE_WRITE truncates on ESP32), reads it back with readString, removes the
file, and reports the content read. -/
def ts (s : ESt) (e : TsEnv) : ESt × List Act :=
  let a0 := [bc s "Starting SD card test..."]
  if s.sd = false ∧ e.beginOk = false then
    (s, a0 ++ [bc s "ERROR: SD initialization failed!"])
  else if e.openOk = false then
    (s, a0 ++ [bc s "ERROR: File creation failed!"])
  else
    let files1 := setF s.files FName.testTxt marker
    if e.readOk = false then
      ({ s with files := files1 }, a0 ++ [bc s "ERROR: Failed to read test file!"])
    else
      let content := getF files1 FName.testTxt
      ({ s with files := removeF files1 FName.testTxt },
       a0 ++ [bc s "SD card test completed successfully",
              bc s ("Read test content: " ++ content)])

/-- mn (lines 398-409): the menu, printed through log_msg. -/
def mnActs (s : ESt) : List Act :=
  [bc s "=== MENU ===", bc s "t - Tare load cell", bc s "r - Run full calibration",
   bc s "s - Start test", bc s "x - Stop test", bc s "d - Test SD card",
   bc s "m - Show this menu", bc s "==========="]

/-- Per-command environment: outcomes of storage operations plus the future
input a blocking wizard will consume. -/
structure CmdEnv where
  stE : StEnv
  tsE : TsEnv
  tareIters : Nat
  newCal : ℚ
  sIn : List Tok
  btIn : List Tok
deriving DecidableEq, Repr

/-- cm (lines 166-209): the command dispatcher.  Every received byte is
echoed through log_msg first; unknown bytes then do nothing.  Returns none
when a blocking wizard never gets the input it waits for (the device spins
forever). -/
def cm (c : Char) (s : ESt) (e : CmdEnv) : Option (ESt × List Act) :=
  let echo := [bc s "Received command"]
  if c = 't' then
    some (s, echo ++ [bc s "Starting tare operation..."])
  else if c = 'r' then
    (cl s ⟨e.tareIters, e.newCal, e.sIn, e.btIn⟩).map
      (fun r => (r.1, echo ++ [bc s "Starting full calibration..."] ++ r.2))
  else if c = 'c' then
    (cc s e.sIn e.btIn).map
      (fun r => (r.1, echo ++ [bc s "Starting manual calibration..."] ++ r.2))
  else if c = 's' then
    let r := st s e.stE
    some (r.1, echo ++ [bc s "Starting test..."] ++ r.2)
  else if c = 'x' then
    let r := sp s
    some (r.1, echo ++ [bc s "Stopping test..."] ++ r.2)
  else if c = 'p' then
    let s1 := { s with plot := !s.plot }
    some (s1, echo ++ [bc s1 "Plot mode toggled"])
  else if c = 'd' then
    let r := ts s e.tsE
    some (r.1, echo ++ [bc s "Testing SD card..."] ++ r.2)
  else if c = 'b' then
    let s1 := { s with bt_on := !s.bt_on }
    some (s1, echo ++ [bc s1 "Bluetooth toggled"])
  else if c = 'm' then
    some (s, echo ++ [bc s "Displaying menu..."] ++ mnActs s)
  else
    some (s, echo)

/-- One pass of the sampling block of loop (lines 115-152).  fire abstracts
the condition nd and millis() > tm + 20 whose timing is analysed separately
by lrun; when it fires in measuring mode a data row is printed and, when a
log is open on a present card, appended with a flush every 20 rows.  The
formatted row text is a pure rendering of floats and is abstracted as a
fixed token. -/
def tick (s : ESt) (fire : Bool) : ESt × List Act :=
  if fire then
    if s.m = 1 ∧ s.run = true then
      let row := "dataRow"
      let a1 := [Act.out true s.bt_on row]
      if s.sd then
        match s.df with
        | some name =>
          let s1 := { s with files := appendF s.files name (row ++ crlf),
                             flushC := s.flushC + 1 }
          if s1.flushC ≥ 20 then
            ({ s1 with flushC := 0 },
             a1 ++ [Act.append name (row ++ crlf), Act.flush,
                    bc s1 "Data flushed to SD card"])
          else
            (s1, a1 ++ [Act.append name (row ++ crlf)])
        | none => (s, a1)
      else (s, a1)
    else (s, [])
  else (s, [])

/-- One externally visible event of loop (lines 114-164): a sampling pass,
or one command byte arriving on the wired serial channel or on the
bluetooth channel. -/
inductive Ev where
  | tick : Bool → Ev
  | serialByte : Char → CmdEnv → Ev
  | btByte : Char → CmdEnv → Ev

/-- Dispatch of one event, exactly as loop does: both channels feed the
same cm. -/
def stepEv (s : ESt) : Ev → Option (ESt × List Act)
  | Ev.tick fire => some (tick s fire)
  | Ev.serialByte c e => cm c s e
  | Ev.btByte c e => cm c s e

/-- Run a list of events.  When a wizard starves (stepEv returns none) the
device is stuck in its busy-wait loop and no further event is ever
processed. -/
def runEvs (s : ESt) : List Ev → ESt × List Act
  | [] => (s, [])
  | ev :: evs =>
    match stepEv s ev with
    | none => (s, [])
    | some (s1, acts) =>
      let r := runEvs s1 evs
      (r.1, acts ++ r.2)

/-- The state right after setup() with a mounted empty card: sd true, index
probed to 0, nothing open, factor at the default. -/
def bootE : ESt :=
  { run := false, m := 0, sd := true, bt_on := true, plot := false,
    fn := 0, fn_buf := gn 0, df := none, calFactor := defaultCal,
    prefsC := none, files := [], flushC := 0 }

end ESP

namespace W

/-
Wired-only Arduino variant, combinedSD.ino lines 416-915.
-/

/-- Wired-variant state relevant to session start and self-test. -/
structure WSt where
  currentMode : Nat
  testRunning : Bool
  plotterMode : Bool
  sdCardPresent : Bool
  fileCounter : Nat
  dataFile : Option FName
  files : FS
deriving DecidableEq, Repr

/-- getFileName (lines 535-539): sprintf "TEST%d.CSV". -/
def getFileName (n : Nat) : FName := FName.testCsv n

/-- startMeasurement (lines 662-697): the measurement state is entered
unconditionally at the end; an open failure only prints an error, and the
card being absent only prints a notice. -/
def startMeasurement (s : WSt) (openOk : Bool) : WSt × List String :=
  let a0 := if s.plotterMode = false then
      ["MEASUREMENT STARTED", "Time(s),Weight(g),Force(N)"] else []
  if s.sdCardPresent then
    let name := getFileName s.fileCounter
    if openOk then
      ({ s with files := appendF s.files name ("Time(s),Weight(g),Force(N)" ++ crlf),
                dataFile := some name, fileCounter := s.fileCounter + 1,
                currentMode := 2, testRunning := true },
       a0 ++ ["Logging to file"])
    else
      ({ s with dataFile := none, currentMode := 2, testRunning := true },
       a0 ++ ["Error opening file!"])
  else
    ({ s with currentMode := 2, testRunning := true },
     a0 ++ ["SD card not available"])

/-- stopMeasurement (lines 699-714). -/
def stopMeasurement (s : WSt) : WSt × List String :=
  let a0 := if s.dataFile.isSome then ["Data saved"] else []
  let a1 := if s.plotterMode = false then ["MEASUREMENT STOPPED"] else []
  ({ s with testRunning := false, dataFile := none, currentMode := 0 }, a0 ++ a1)

/-- The two marker lines the wired self-test writes (lines 857-858). -/
def marker2 : String :=
  "SD Card Test File" ++ crlf ++ "If you can read this, SD card works!" ++ crlf

/-- Result of one wired self-test run. -/
structure TsRes where
  files : FS
  sdCardPresent : Bool
  pass : Bool
deriving DecidableEq, Repr

/-- testSDCard (lines 832-886): initialize the card when needed, append the
marker lines to TEST_SD.TXT (AVR FILE_WRITE appends), read them back byte
by byte, list the directory, and report.  No SD.remove is ever issued: the
test file stays on the card. -/
def testSDCard (fs : FS) (present : Bool) (beginOk openOk readOk : Bool) : TsRes :=
  if present = false ∧ beginOk = false then ⟨fs, false, false⟩
  else
    if openOk = false then ⟨fs, true, false⟩
    else
      let fs1 := appendF fs FName.testSd marker2
      if readOk = false then ⟨fs1, true, false⟩
      else ⟨fs1, true, true⟩

/-- The accept/reject wait of calibrate (lines 760-775): read one byte at a
time; y saves to EEPROM and resumes, n resumes without saving, every other
byte is discarded and the loop keeps waiting.  none when the stream ends
without an answer (the code waits forever). -/
def acceptLoopW : List Char → Option (Bool × List Char)
  | [] => none
  | c :: rest =>
    if c = 'y' then some (true, rest)
    else if c = 'n' then some (false, rest)
    else acceptLoopW rest

/-- Lines 760-783 of calibrate: run the accept loop over the answer bytes,
then LoadCell.setCalFactor(newCalibrationValue) runs unconditionally (line
778), so the proposed factor becomes the active factor for both answers;
EEPROM receives it only on y.  Returns (active factor, EEPROM value). -/
def calibrateFinish (eeprom newCal : ℚ) (ans : List Char) : Option (ℚ × ℚ) :=
  (acceptLoopW ans).map (fun r => (newCal, if r.1 then newCal else eeprom))

end W

namespace BT

/-
Bluetooth Arduino variant, src/unnamed/part_000.
-/

/-- One console write of the bluetooth variant: to the wired serial or to
the bluetooth SoftwareSerial. -/
inductive BAct where
  | outS : String → BAct
  | outB : String → BAct
deriving DecidableEq, Repr

/-- Global state of the bluetooth variant.  The two input streams hold the
future operator bytes a blocking wizard will consume. -/
structure BSt where
  currentMode : Nat
  testRunning : Bool
  plotterMode : Bool
  btEnabled : Bool
  sdCardPresent : Bool
  fileCounter : Nat
  dataFile : Option FName
  files : FS
  liveFactor : ℚ
  eeprom : ℚ
  serialIn : List Tok
  btIn : List Tok
deriving DecidableEq, Repr

/-- Environment of one command: storage outcomes, tare completion delay,
the factor the driver regression returns, and fuel bounding the operator
wait loops (none is returned when it runs out, the code waiting forever). -/
structure BEnv where
  beginOk : Bool
  openOk : Bool
  readOk : Bool
  tareIters : Nat
  newCal : ℚ
  fuel : Nat
deriving DecidableEq, Repr

/-- Copies sent to the bluetooth channel only while it is enabled. -/
def ifBT (s : BSt) (a : List BAct) : List BAct := if s.btEnabled then a else []

/-- printMenu (lines 297-326). -/
def btPrintMenu (s : BSt) : List BAct :=
  [BAct.outS "==== ROCKET TEST STAND ====", BAct.outS "Commands:",
   BAct.outS "t - Tare scale to zero", BAct.outS "r - Run calibration",
   BAct.outS "c - Change calibration factor", BAct.outS "s - Start measurement",
   BAct.outS "x - Stop measurement", BAct.outS "p - Toggle plotter mode",
   BAct.outS "d - Test SD card", BAct.outS "b - Toggle Bluetooth",
   BAct.outS "m - Show menu", BAct.outS "=========================="] ++
  ifBT s
   [BAct.outB "==== ROCKET TEST STAND ====", BAct.outB "Commands:",
    BAct.outB "t - Tare scale to zero", BAct.outB "r - Run calibration",
    BAct.outB "c - Change calibration factor", BAct.outB "s - Start measurement",
    BAct.outB "x - Stop measurement", BAct.outB "p - Toggle plotter mode",
    BAct.outB "d - Test SD card", BAct.outB "b - Toggle Bluetooth",
    BAct.outB "m - Show menu", BAct.outB "=========================="]

/-- The known-mass wait loop of calibrate (lines 445-474).  Each iteration
runs the Serial branch and then, when the channel is enabled, the bluetooth
branch; each branch overwrites known_mass with its parseFloat result and
resumes on any nonzero value, zero being the only re-prompted entry.
Returns the final known_mass, the remaining streams and the prints of the
exit iteration. -/
def btMassLoop : Nat → List Tok → List Tok → Bool → Option (ℚ × List Tok × List Tok × List BAct)
  | 0, _, _, _ => none
  | fuel + 1, sIn, btIn, btEn =>
    let ser : ℚ × List Tok × Bool × List BAct :=
      match sIn with
      | [] => (0, [], false, [])
      | t :: rest =>
        if parseTok t = 0 then (0, rest, false, [])
        else (parseTok t, rest, true,
          [BAct.outS "Known mass"] ++ (if btEn then [BAct.outB "Known mass"] else []))
    let bt : ℚ × List Tok × Bool × List BAct :=
      if btEn then
        match btIn with
        | [] => (ser.1, [], ser.2.2.1, ser.2.2.2)
        | t :: rest =>
          if parseTok t = 0 then (0, rest, ser.2.2.1, ser.2.2.2)
          else (parseTok t, rest, true,
            ser.2.2.2 ++ [BAct.outS "Known mass", BAct.outB "Known mass"])
      else (ser.1, btIn, ser.2.2.1, ser.2.2.2)
    if bt.2.2.1 then some (bt.1, ser.2.1, bt.2.1, bt.2.2.2)
    else btMassLoop fuel ser.2.1 bt.2.1 btEn

/-- The save-to-EEPROM wait loop shared by calibrate (lines 489-527) and
changeSavedCalFactor (lines 589-627): each iteration runs the Serial branch
then the enabled bluetooth branch; y writes newVal to EEPROM at once, n
answers without saving, any other byte is discarded. -/
def btAcceptLoop : Nat → List Tok → List Tok → Bool → ℚ → ℚ →
    Option (ℚ × List Tok × List Tok × List BAct)
  | 0, _, _, _, _, _ => none
  | fuel + 1, sIn, btIn, btEn, newVal, eeprom =>
    let ser : ℚ × List Tok × Bool × List BAct :=
      match sIn with
      | [] => (eeprom, [], false, [])
      | c :: rest =>
        if readTok c = 'y' then
          (newVal, rest, true,
           [BAct.outS "Value saved"] ++ (if btEn then [BAct.outB "Value saved"] else []))
        else if readTok c = 'n' then
          (eeprom, rest, true,
           [BAct.outS "Value not saved"] ++ (if btEn then [BAct.outB "Value not saved"] else []))
        else (eeprom, rest, false, [])
    let bt : ℚ × List Tok × Bool × List BAct :=
      if btEn then
        match btIn with
        | [] => (ser.1, [], ser.2.2.1, ser.2.2.2)
        | c :: rest =>
          if readTok c = 'y' then
            (newVal, rest, true,
             ser.2.2.2 ++ [BAct.outS "Value saved", BAct.outB "Value saved"])
          else if readTok c = 'n' then
            (ser.1, rest, true,
             ser.2.2.2 ++ [BAct.outS "Value not saved", BAct.outB "Value not saved"])
          else (ser.1, rest, ser.2.2.1, ser.2.2.2)
      else (ser.1, btIn, ser.2.2.1, ser.2.2.2)
    if bt.2.2.1 then some (bt.1, ser.2.1, bt.2.1, bt.2.2.2)
    else btAcceptLoop fuel ser.2.1 bt.2.1 btEn newVal eeprom

/-- calibrate (lines 400-537): prompts, tare wait loop (each of its
tareIters iterations consumes one available byte per polled channel), mass
wait loop, driver regression giving the proposed value, accept loop, and
then LoadCell.setCalFactor(newCalibrationValue) unconditionally (line 530)
before returning to standby and reprinting the menu. -/
def btCalibrate (s : BSt) (e : BEnv) : Option (BSt × List BAct) :=
  let a0 := [BAct.outS "*** CALIBRATION ***", BAct.outS "Remove any load.",
             BAct.outS "Send t to tare."] ++
            ifBT s [BAct.outB "*** CALIBRATION ***", BAct.outB "Remove any load.",
                    BAct.outB "Send t to tare."]
  let sIn0 := s.serialIn.drop e.tareIters
  let btIn0 := if s.btEnabled then s.btIn.drop e.tareIters else s.btIn
  let a1 := a0 ++ [BAct.outS "Tare complete"] ++ ifBT s [BAct.outB "Tare complete"] ++
            [BAct.outS "Place calibration weight", BAct.outS "Send weight in grams"] ++
            ifBT s [BAct.outB "Place calibration weight", BAct.outB "Send weight in grams"]
  match btMassLoop e.fuel sIn0 btIn0 s.btEnabled with
  | none => none
  | some (_, sIn1, btIn1, aM) =>
    let newCal := e.newCal
    let a2 := a1 ++ aM ++ [BAct.outS "New cal value", BAct.outS "Save to EEPROM? (y/n)"] ++
              ifBT s [BAct.outB "New cal value", BAct.outB "Save to EEPROM? (y/n)"]
    match btAcceptLoop e.fuel sIn1 btIn1 s.btEnabled newCal s.eeprom with
    | none => none
    | some (ee1, sIn2, btIn2, aA) =>
      let s1 := { s with liveFactor := newCal, eeprom := ee1,
                         serialIn := sIn2, btIn := btIn2, currentMode := 0 }
      some (s1, a2 ++ aA ++ [BAct.outS "Calibration complete"] ++
                 ifBT s [BAct.outB "Calibration complete"] ++ btPrintMenu s1)

/-- The new-factor wait loop of changeSavedCalFactor (lines 554-584): like
the mass loop, but a nonzero entry is applied live with setCalFactor inside
the accepting branch; newCalibrationValue keeps the last parsed value. -/
def btFactorLoop : Nat → List Tok → List Tok → Bool → ℚ →
    Option (ℚ × ℚ × List Tok × List Tok × List BAct)
  | 0, _, _, _, _ => none
  | fuel + 1, sIn, btIn, btEn, live =>
    let ser : ℚ × ℚ × List Tok × Bool × List BAct :=
      match sIn with
      | [] => (0, live, [], false, [])
      | t :: rest =>
        if parseTok t = 0 then (0, live, rest, false, [])
        else (parseTok t, parseTok t, rest, true,
          [BAct.outS "New value"] ++ (if btEn then [BAct.outB "New value"] else []))
    let bt : ℚ × ℚ × List Tok × Bool × List BAct :=
      if btEn then
        match btIn with
        | [] => (ser.1, ser.2.1, [], ser.2.2.2.1, ser.2.2.2.2)
        | t :: rest =>
          if parseTok t = 0 then (0, ser.2.1, rest, ser.2.2.2.1, ser.2.2.2.2)
          else (parseTok t, parseTok t, rest, true,
            ser.2.2.2.2 ++ [BAct.outS "New value", BAct.outB "New value"])
      else (ser.1, ser.2.1, btIn, ser.2.2.2.1, ser.2.2.2.2)
    if bt.2.2.2.1 then some (bt.1, bt.2.1, ser.2.2.1, bt.2.2.1, bt.2.2.2.2)
    else btFactorLoop fuel ser.2.2.1 bt.2.2.1 btEn bt.2.1

/-- changeSavedCalFactor (lines 539-631): show the current factor, wait for
a nonzero replacement applied live at once, then run the accept loop; EEPROM
receives the last parsed value only on y, the live factor stays at the last
nonzero entry either way. -/
def btChangeSavedCalFactor (s : BSt) (e : BEnv) : Option (BSt × List BAct) :=
  let a0 := [BAct.outS "*** MANUAL CALIBRATION ***", BAct.outS "Current",
             BAct.outS "Enter new value:"] ++
            ifBT s [BAct.outB "*** MANUAL CALIBRATION ***", BAct.outB "Current",
                    BAct.outB "Enter new value:"]
  match btFactorLoop e.fuel s.serialIn s.btIn s.btEnabled s.liveFactor with
  | none => none
  | some (newVal, live1, sIn1, btIn1, aF) =>
    let a1 := a0 ++ aF ++ [BAct.outS "Save to EEPROM? (y/n)"] ++
              ifBT s [BAct.outB "Save to EEPROM? (y/n)"]
    match btAcceptLoop e.fuel sIn1 btIn1 s.btEnabled newVal s.eeprom with
    | none => none
    | some (ee1, sIn2, btIn2, aA) =>
      let s1 := { s with liveFactor := live1, eeprom := ee1,
                         serialIn := sIn2, btIn := btIn2, currentMode := 0 }
      some (s1, a1 ++ aA ++ btPrintMenu s1)

/-- startMeasurement (lines 328-375): the measurement state is entered
unconditionally at the end; open failure and a missing card only print. -/
def btStartMeasurement (s : BSt) (e : BEnv) : BSt × List BAct :=
  let a0 := if s.plotterMode = false then
      [BAct.outS "MEASUREMENT STARTED", BAct.outS "Time(s),Weight(g),Force(N)"] ++
      ifBT s [BAct.outB "MEASUREMENT STARTED", BAct.outB "Time(s),Weight(g),Force(N)"]
    else []
  if s.sdCardPresent then
    let name := FName.testCsv s.fileCounter
    if e.openOk then
      ({ s with files := appendF s.files name ("Time(s),Weight(g),Force(N)" ++ crlf),
                dataFile := some name, fileCounter := s.fileCounter + 1,
                currentMode := 2, testRunning := true },
       a0 ++ [BAct.outS "Logging to file"] ++ ifBT s [BAct.outB "Logging to file"])
    else
      ({ s with dataFile := none, currentMode := 2, testRunning := true },
       a0 ++ [BAct.outS "Error opening file!"] ++ ifBT s [BAct.outB "Error opening file!"])
  else
    ({ s with currentMode := 2, testRunning := true },
     a0 ++ [BAct.outS "SD card not available"] ++ ifBT s [BAct.outB "SD card not available"])

/-- stopMeasurement (lines 377-398). -/
def btStopMeasurement (s : BSt) : BSt × List BAct :=
  let a0 := if s.dataFile.isSome then
      [BAct.outS "Data saved"] ++ ifBT s [BAct.outB "Data saved"] else []
  let a1 := if s.plotterMode = false then
      [BAct.outS "MEASUREMENT STOPPED"] ++ ifBT s [BAct.outB "MEASUREMENT STOPPED"] else []
  ({ s with testRunning := false, dataFile := none, currentMode := 0 }, a0 ++ a1)

/-- testSDCard (lines 633-712): appends the marker lines to TEST_SD.TXT,
reads them back, lists the directory; the file is never removed. -/
def btTestSDCard (s : BSt) (e : BEnv) : BSt × List BAct :=
  let a0 := [BAct.outS "*** TESTING SD CARD ***"] ++ ifBT s [BAct.outB "*** TESTING SD CARD ***"]
  if s.sdCardPresent = false ∧ e.beginOk = false then
    (s, a0 ++ [BAct.outS "SD card failed"] ++ ifBT s [BAct.outB "SD card failed"])
  else
    let s1 := { s with sdCardPresent := true }
    if e.openOk = false then
      (s1, a0 ++ [BAct.outS "Error creating test file!"] ++ ifBT s [BAct.outB "Error creating test file!"])
    else
      let s2 := { s1 with files := appendF s1.files FName.testSd W.marker2 }
      if e.readOk = false then
        (s2, a0 ++ [BAct.outS "Error reading test file!"] ++ ifBT s [BAct.outB "Error reading test file!"])
      else
        let listing := s2.files.flatMap
          (fun _ => [BAct.outS "entry"] ++ ifBT s [BAct.outB "entry"])
        (s2, a0 ++ [BAct.outS "Test file written."] ++ ifBT s [BAct.outB "Test file written."] ++
             listing ++ [BAct.outS "SD card test successful!"] ++
             ifBT s [BAct.outB "SD card test successful!"])

/-- processCommand (lines 248-295).  None is returned when a wizard starves
on input. -/
def btProcessCommand (c : Char) (s : BSt) (e : BEnv) : Option (BSt × List BAct) :=
  if c = 't' then
    some (s, [BAct.outS "Taring...", BAct.outB "Taring..."])
  else if c = 'r' then
    btCalibrate { s with currentMode := 1 } e
  else if c = 'c' then
    btChangeSavedCalFactor s e
  else if c = 's' then
    some (btStartMeasurement s e)
  else if c = 'x' then
    some (btStopMeasurement s)
  else if c = 'm' then
    some (s, btPrintMenu s)
  else if c = 'p' then
    let s1 := { s with plotterMode := !s.plotterMode }
    some (s1, [BAct.outS "Plotter toggled", BAct.outB "Plotter toggled"])
  else if c = 'd' then
    some (btTestSDCard s e)
  else if c = 'b' then
    let s1 := { s with btEnabled := !s.btEnabled }
    some (s1, [BAct.outS "Bluetooth toggled"] ++
      (if s1.btEnabled then [BAct.outB "Bluetooth ON"] else []))
  else
    some (s, [])

/-- Loop dispatch, Serial branch (lines 227-230): read the byte, process
it. -/
def deliverSerial (c : Char) (s : BSt) (e : BEnv) : Option (BSt × List BAct) :=
  btProcessCommand c s e

/-- Loop dispatch, bluetooth branch (lines 233-239): read the byte, process
it, then echo the received command back on the bluetooth channel only. -/
def deliverBT (c : Char) (s : BSt) (e : BEnv) : Option (BSt × List BAct) :=
  (btProcessCommand c s e).map
    (fun r => (r.1, r.2 ++ [BAct.outB ("Received command: " ++ c.toString)]))

/-- A concrete standby state used by the closed counterexample. -/
def bts0 : BSt :=
  { currentMode := 0, testRunning := false, plotterMode := false, btEnabled := true,
    sdCardPresent := false, fileCounter := 0, dataFile := none, files := [],
    liveFactor := defaultCal, eeprom := defaultCal, serialIn := [], btIn := [] }

/-- A concrete benign environment for the closed counterexample. -/
def bte0 : BEnv :=
  { beginOk := true, openOk := true, readOk := true, tareIters := 0,
    newCal := defaultCal, fuel := 1 }

end BT

namespace ESP

/-- True for every action except the log open and close markers. -/
def nonLogA : Act → Bool
  | Act.openLog _ => false
  | Act.closeLog => false
  | _ => true

/-- True for every action except a data-log append. -/
def nonAppendA : Act → Bool
  | Act.append _ _ => false
  | _ => true

/-- An output action carries a wired-serial copy. -/
def serialOkA : Act → Bool
  | Act.out ser _ _ => ser
  | _ => true

/-- Log open/close well-bracketing at nesting depth at most one: an open is
legal only with no log open, a close only with one open. -/
def depthOk : Nat → List Act → Bool
  | _, [] => true
  | d, Act.openLog _ :: r => d == 0 && depthOk 1 r
  | d, Act.closeLog :: r => d == 1 && depthOk 0 r
  | d, _ :: r => depthOk d r

/-- Number of open log handles after a list of actions. -/
def depthAfter : Nat → List Act → Nat
  | d, [] => d
  | _, Act.openLog _ :: r => depthAfter 1 r
  | _, Act.closeLog :: r => depthAfter 0 r
  | d, _ :: r => depthAfter d r

/-- Number of open log handles held by a state. -/
def dfC (s : ESt) : Nat := if s.df.isSome then 1 else 0

/-- The event delivers the start-command byte on some channel. -/
def isStartEv : Ev → Bool
  | Ev.serialByte c _ => c == 's'
  | Ev.btByte c _ => c == 's'
  | Ev.tick _ => false

/-- Invariants of the action trace of one step: every console write carries
the wired-serial copy, and log opens and closes stay well bracketed at
depth at most one, ending at the handle count of the post state. -/
def stepInv (s : ESt) (r : ESt × List Act) : Prop :=
  r.2.all serialOkA = true ∧
  depthOk (dfC s) r.2 = true ∧
  depthAfter (dfC s) r.2 = dfC r.1

/-- A step that keeps the run flag off and appends no data row. -/
def quietInv (s : ESt) (r : ESt × List Act) : Prop :=
  r.1.run = s.run ∧ r.2.all nonAppendA = true

end ESP

/-
Theorems.
-/

/-- C9 counterexample: a persisted zero is not replaced by the default on
the ESP32 variant; p.getFloat returns the stored zero and it is applied
as the calibration factor, contradicting the claim that a zero persisted
value yields 217.84. -/
theorem c9_counterexample :
    esp32LoadCal (some (FVal.val 0)) = FVal.val 0 ∧
    FVal.val 0 ≠ FVal.val defaultCal := by
  refine ⟨rfl, fun h => ?_⟩
  have h2 : (0 : ℚ) = defaultCal := by injection h
  norm_num [defaultCal] at h2

/-- C9 (amended): the wired and bluetooth Arduino variants substitute the
default 217.84 for a persisted NaN (which an erased EEPROM reads back as)
or zero and otherwise use the persisted value; the ESP32 variant
substitutes the default only when the key is absent, and uses a stored NaN
or zero unchanged. -/
theorem c9_boot_factor_amended :
    (∀ q : ℚ, q ≠ 0 → arduinoLoadCal (FVal.val q) = q) ∧
    arduinoLoadCal FVal.nan = defaultCal ∧
    arduinoLoadCal (FVal.val 0) = defaultCal ∧
    esp32LoadCal none = FVal.val defaultCal ∧
    (∀ v : FVal, esp32LoadCal (some v) = v) := by
  refine ⟨?_, rfl, ?_, rfl, fun v => rfl⟩
  · intro q hq
    simp [arduinoLoadCal, hq]
  · simp [arduinoLoadCal]

/-- C9 witness: the amended theorem applied at the persisted value 5. -/
theorem c9_witness : arduinoLoadCal (FVal.val 5) = 5 :=
  c9_boot_factor_amended.1 5 (by norm_num)

/-- Every emission of a run lies strictly more than 20ms after the tm the
run started with, and not before the start time. -/
theorem lrun_mem_bound : ∀ (rs : List Bool) (s : LoopTm) (t e : Nat),
    e ∈ lrun s t rs → s.tm + 20 < e ∧ t ≤ e := by
  intro rs
  induction rs with
  | nil => intro s t e h; simp [lrun] at h
  | cons r rs ih =>
    intro s t e h
    by_cases hc : (s.nd || r) = true ∧ s.tm + 20 < t
    · rw [lrun, if_pos hc] at h
      rcases List.mem_cons.mp h with h1 | h1
      · subst h1; exact ⟨hc.2, Nat.le_refl _⟩
      · have h2 := ih ⟨false, t⟩ (t + 1) e h1
        exact ⟨by omega, by omega⟩
    · rw [lrun, if_neg hc] at h
      have h2 := ih ⟨s.nd || r, s.tm⟩ (t + 1) e h
      exact ⟨h2.1, by omega⟩

/-- Consecutive emissions are separated by strictly more than 20ms. -/
theorem lrun_gap : ∀ (rs : List Bool) (s : LoopTm) (t : Nat),
    List.Chain' (fun a b => a + 20 < b) (lrun s t rs) := by
  intro rs
  induction rs with
  | nil => intro s t; simp [lrun]
  | cons r rs ih =>
    intro s t
    by_cases hc : (s.nd || r) = true ∧ s.tm + 20 < t
    · rw [lrun, if_pos hc, List.chain'_cons']
      refine ⟨?_, ih _ _⟩
      intro y hy
      exact (lrun_mem_bound rs ⟨false, t⟩ (t + 1) y (List.mem_of_mem_head? hy)).1
    · rw [lrun, if_neg hc]
      exact ih _ _

/-- A list with gaps above 20 between consecutive elements has at most one
element inside any half-open 20ms window. -/
theorem window_le_one : ∀ (xs : List Nat) (a : Nat),
    List.Pairwise (fun x y => x + 20 < y) xs →
    (∀ e ∈ xs, a ≤ e ∧ e < a + 20) → xs.length ≤ 1 := by
  intro xs a hp hw
  cases xs with
  | nil => simp
  | cons x ys =>
    cases ys with
    | nil => simp
    | cons y rest =>
      exfalso
      have hxy : x + 20 < y := (List.pairwise_cons.mp hp).1 y (by simp)
      have h1 := hw x (by simp)
      have h2 := hw y (by simp)
      omega

/-- No more emissions than ready signals, plus one for a latched pending
reading. -/
theorem lrun_length_le : ∀ (rs : List Bool) (s : LoopTm) (t : Nat),
    (lrun s t rs).length ≤ rs.count true + (if s.nd = true then 1 else 0) := by
  intro rs
  induction rs with
  | nil => intro s t; simp [lrun]
  | cons r rs ih =>
    intro s t
    by_cases hc : (s.nd || r) = true ∧ s.tm + 20 < t
    · rw [lrun, if_pos hc]
      have h1 := ih ⟨false, t⟩ (t + 1)
      simp only [List.length_cons, List.count_cons]
      rcases Bool.eq_false_or_eq_true s.nd with h | h <;>
        rcases Bool.eq_false_or_eq_true r with h2 | h2 <;>
          simp [h, h2] at hc ⊢ <;> simp [h] at h1 <;> omega
    · rw [lrun, if_neg hc]
      have h1 := ih ⟨s.nd || r, s.tm⟩ (t + 1)
      simp only [List.count_cons]
      rcases Bool.eq_false_or_eq_true s.nd with h | h <;>
        rcases Bool.eq_false_or_eq_true r with h2 | h2 <;>
          simp [h, h2] at h1 ⊢ <;> omega

/-- Quiet iterations with no pending reading neither emit nor change state;
they only advance time. -/
theorem lrun_quiet : ∀ (k t tm : Nat) (rest : List Bool),
    lrun ⟨false, tm⟩ t (List.replicate k false ++ rest) =
      lrun ⟨false, tm⟩ (t + k) rest := by
  intro k
  induction k with
  | zero => intro t tm rest; simp
  | succ k ih =>
    intro t tm rest
    rw [List.replicate_succ, List.cons_append, lrun,
        if_neg (by simp)]
    have h1 := ih (t + 1) tm rest
    simp only [Bool.or_false] at h1 ⊢
    rw [h1]
    have h2 : t + 1 + k = t + (k + 1) := by omega
    rw [h2]

/-- A latched pending reading is emitted at exactly tm + 21, the first
iteration strictly past the 20ms window. -/
theorem lrun_pending : ∀ (k t tm : Nat) (rest : List Bool),
    t ≤ tm + 21 → tm + 21 < t + k →
    lrun ⟨true, tm⟩ t (List.replicate k false ++ rest) =
      (tm + 21) :: lrun ⟨false, tm + 21⟩ (t + k) rest := by
  intro k
  induction k with
  | zero => intro t tm rest h1 h2; omega
  | succ k ih =>
    intro t tm rest h1 h2
    rw [List.replicate_succ, List.cons_append, lrun]
    by_cases he : tm + 20 < t
    · have ht : t = tm + 21 := by omega
      rw [if_pos ⟨by simp, he⟩, lrun_quiet, ht]
      have h3 : tm + 21 + 1 + k = tm + 21 + (k + 1) := by omega
      rw [h3]
    · rw [if_neg (by simp [he])]
      simp only [Bool.true_or]
      have h3 := ih (t + 1) tm rest (by omega) (by omega)
      rw [h3]
      have h4 : t + 1 + k = t + (k + 1) := by omega
      rw [h4]

/-- One ready chunk with at least 21ms of trailing quiet produces exactly
one emission, no later than the end of the chunk. -/
theorem lrun_chunk : ∀ (a b tm t : Nat) (rest : List Bool), tm ≤ t → 21 ≤ b →
    ∃ e, lrun ⟨false, tm⟩ t (chunk a b ++ rest) =
        e :: lrun ⟨false, e⟩ (t + (a + 1 + b)) rest ∧ e ≤ t + (a + 1 + b) := by
  intro a b tm t rest htm hb
  have hsplit : chunk a b ++ rest =
      List.replicate a false ++ (true :: (List.replicate b false ++ rest)) := by
    simp [chunk]
  rw [hsplit, lrun_quiet, lrun]
  by_cases he : tm + 20 < t + a
  · refine ⟨t + a, ?_, by omega⟩
    rw [if_pos ⟨by simp, he⟩, lrun_quiet]
    have h3 : t + a + 1 + b = t + (a + 1 + b) := by omega
    rw [h3]
  · refine ⟨tm + 21, ?_, by omega⟩
    rw [if_neg (by simp [he])]
    simp only [Bool.false_or]
    have h3 := lrun_pending b (t + a + 1) tm rest (by omega) (by omega)
    rw [h3]
    have h4 : t + a + 1 + b = t + (a + 1 + b) := by omega
    rw [h4]

/-- When every ready signal is followed by at least 21 quiet milliseconds,
each ready signal produces exactly one emission. -/
theorem lrun_chunks_length : ∀ (cs : List (Nat × Nat)) (tm t : Nat), tm ≤ t →
    (∀ c ∈ cs, 21 ≤ c.2) →
    (lrun ⟨false, tm⟩ t (chunksInput cs)).length = cs.length := by
  intro cs
  induction cs with
  | nil => intro tm t h1 h2; simp [chunksInput, lrun]
  | cons c cs ih =>
    intro tm t h1 h2
    rw [chunksInput]
    obtain ⟨e, heq, hle⟩ := lrun_chunk c.1 c.2 tm t (chunksInput cs) h1 (h2 c (by simp))
    rw [heq]
    simp only [List.length_cons]
    rw [ih e (t + (c.1 + 1 + c.2)) hle (fun d hd => h2 d (by simp [hd]))]

/-- C6 (amended): a sample is emitted only when a fresh reading is latched
and strictly more than 20ms have passed since the last emission, so
consecutive emissions are more than 20ms apart and any 20ms window holds at
most one emission (not exactly one); no more emissions occur than ready
signals (none duplicated); and when every ready signal is followed by at
least 21 quiet milliseconds before the next, every ready sample is emitted
exactly once. -/
theorem c6_sampling_cadence_amended :
    (∀ (s : LoopTm) (t : Nat) (rs : List Bool),
        List.Chain' (fun a b => a + 20 < b) (lrun s t rs)) ∧
    (∀ (s : LoopTm) (t a : Nat) (rs : List Bool),
        ((lrun s t rs).filter
          (fun e => decide (a ≤ e) && decide (e < a + 20))).length ≤ 1) ∧
    (∀ (s : LoopTm) (t : Nat) (rs : List Bool),
        (lrun s t rs).length ≤ rs.count true + (if s.nd = true then 1 else 0)) ∧
    (∀ cs : List (Nat × Nat), (∀ c ∈ cs, 21 ≤ c.2) →
        (lrun ⟨false, 0⟩ 0 (chunksInput cs)).length = cs.length) := by
  refine ⟨fun s t rs => lrun_gap rs s t, ?_,
          fun s t rs => lrun_length_le rs s t,
          fun cs h => lrun_chunks_length cs 0 0 (Nat.le_refl 0) h⟩
  intro s t a rs
  haveI : IsTrans ℕ (fun x y => x + 20 < y) := ⟨fun x y z h1 h2 => by omega⟩
  refine window_le_one _ a
    ((List.chain'_iff_pairwise.mp (lrun_gap rs s t)).filter _) ?_
  intro e he
  have hp := (List.mem_filter.mp he).2
  simp only [Bool.and_eq_true, decide_eq_true_eq] at hp
  exact hp

/-- C6 counterexample: with a ready signal every millisecond (faster than
every 20ms) for 441ms, emissions land every 21ms (21, 42, ..., 420), so the
20ms window from 400 to 419 contains no emission at all while the run emits
20 samples, refuting that exactly one row is emitted per 20ms window. -/
theorem c6_counterexample :
    ((lrun ⟨false, 0⟩ 0 (List.replicate 441 true)).filter
        (fun e => decide (400 ≤ e) && decide (e < 420))).length = 0 ∧
    (lrun ⟨false, 0⟩ 0 (List.replicate 441 true)).length = 20 := by
  decide

/-- C6 witness: one ready chunk with 21 quiet milliseconds after it yields
exactly one emission. -/
theorem c6_witness :
    (lrun ⟨false, 0⟩ 0 (chunksInput [(0, 21)])).length = [(0, 21)].length :=
  c6_sampling_cadence_amended.2.2.2 [(0, 21)] (by decide)

/-- Among the fs.length + 1 indices starting at k, at least one sequential
name is unused: the used names are at most fs.length many. -/
theorem exists_unused : ∀ (fs : FS) (k : Nat),
    ∃ j, j ≤ fs.length ∧ fexists fs (ESP.gn (k + j)) = false := by
  intro fs k
  by_contra h
  push_neg at h
  have hall : ∀ j, j ≤ fs.length → fexists fs (ESP.gn (k + j)) = true := by
    intro j hj
    have hne := h j hj
    rcases Bool.eq_false_or_eq_true (fexists fs (ESP.gn (k + j))) with hb | hb
    · exact hb
    · exact absurd hb hne
  have hnodup : ((List.range (fs.length + 1)).map (fun j => ESP.gn (k + j))).Nodup := by
    refine List.Nodup.map ?_ (List.nodup_range _)
    intro i j hij
    simp only [ESP.gn, FName.tcsv.injEq] at hij
    omega
  have hsub : ((List.range (fs.length + 1)).map (fun j => ESP.gn (k + j))) ⊆
      fs.map Prod.fst := by
    intro x hx
    rcases List.mem_map.mp hx with ⟨j, hj, rfl⟩
    have hjle : j ≤ fs.length := by
      have := List.mem_range.mp hj
      omega
    rcases List.any_eq_true.mp (hall j hjle) with ⟨p, hp, hpe⟩
    have hpx : p.1 = ESP.gn (k + j) := of_decide_eq_true hpe
    exact hpx ▸ List.mem_map_of_mem Prod.fst hp
  have hle := (hnodup.subperm hsub).length_le
  simp only [List.length_map, List.length_range] at hle
  omega

/-- The scan of probeFrom finds, within its fuel, the least unused index at
or after its start. -/
theorem probeFrom_correct : ∀ (fuel k : Nat) (fs : FS),
    (∃ j, j < fuel ∧ fexists fs (ESP.gn (k + j)) = false) →
    k ≤ ESP.probeFrom fuel k fs ∧
    fexists fs (ESP.gn (ESP.probeFrom fuel k fs)) = false ∧
    (∀ i, k ≤ i → i < ESP.probeFrom fuel k fs → fexists fs (ESP.gn i) = true) := by
  intro fuel
  induction fuel with
  | zero => intro k fs h; rcases h with ⟨j, hj, _⟩; omega
  | succ fuel ih =>
    intro k fs h
    by_cases he : fexists fs (ESP.gn k) = true
    · rw [ESP.probeFrom, if_pos he]
      have hex : ∃ j, j < fuel ∧ fexists fs (ESP.gn (k + 1 + j)) = false := by
        rcases h with ⟨j, hj, hjf⟩
        cases j with
        | zero =>
          rw [Nat.add_zero] at hjf
          rw [hjf] at he
          cases he
        | succ j =>
          refine ⟨j, by omega, ?_⟩
          have harith : k + 1 + j = k + (j + 1) := by omega
          rw [harith]
          exact hjf
      obtain ⟨h1, h2, h3⟩ := ih (k + 1) fs hex
      refine ⟨by omega, h2, ?_⟩
      intro i hki hir
      by_cases hik : i = k
      · rw [hik]; exact he
      · exact h3 i (by omega) hir
    · have he2 : fexists fs (ESP.gn k) = false := by
        rcases Bool.eq_false_or_eq_true (fexists fs (ESP.gn k)) with hb | hb
        · exact absurd hb he
        · exact hb
      rw [ESP.probeFrom, if_neg (by rw [he2]; simp)]
      exact ⟨Nat.le_refl k, he2, fun i h1 h2 => by omega⟩

/-- probe returns the least unused sequential index at or after its start. -/
theorem probe_correct : ∀ (k : Nat) (fs : FS),
    k ≤ ESP.probe k fs ∧
    fexists fs (ESP.gn (ESP.probe k fs)) = false ∧
    (∀ i, k ≤ i → i < ESP.probe k fs → fexists fs (ESP.gn i) = true) := by
  intro k fs
  obtain ⟨j, hj, hjf⟩ := exists_unused fs k
  exact probeFrom_correct (fs.length + 1) k fs ⟨j, by omega, hjf⟩

/-- The open phase of st never decreases the file counter. -/
theorem stOpen_fn_le : ∀ (s : ESP.ESt) (e : ESP.StEnv) (acc : List ESP.Act),
    s.fn ≤ (ESP.stOpen s e acc).1.fn := by
  intro s e acc
  simp only [ESP.stOpen]
  by_cases hex : fexists s.files (ESP.gn s.fn) = true <;>
    by_cases ho : e.openOk = false <;>
      by_cases hh : e.headerOk = false <;>
        simp [hex, ho, hh]

/-- st never decreases the file counter. -/
theorem st_fn_le : ∀ (s : ESP.ESt) (e : ESP.StEnv), s.fn ≤ (ESP.st s e).1.fn := by
  intro s e
  have hpro := (probe_correct s.fn s.files).1
  cases hsd : s.sd with
  | false => simp [ESP.st, hsd]
  | true =>
    cases hb : e.beginOk with
    | true =>
      simp only [ESP.st, hsd, hb]
      simp only [if_true, if_neg (by simp : ¬(true = false))]
      exact stOpen_fn_le s e []
    | false =>
      cases hm : e.mediaOk with
      | false => simp [ESP.st, ESP.initSDCard, hsd, hb, hm]
      | true =>
        simp only [ESP.st, ESP.initSDCard, hsd, hb, hm]
        simp only [Bool.true_eq_false, if_false, if_true, reduceIte]
        refine le_trans hpro ?_
        exact stOpen_fn_le { s with sd := true, fn := ESP.probe s.fn s.files } e
          ([ESP.bc s "WARNING: SD card reinitialization needed"] ++
           [ESP.bc s "Initializing SD card...", ESP.bc s "SD card initialization done.",
            ESP.bc s "Next test file announced"])

/-- C1 (amended): the boot-time probe sets the index to the first
sequential name not present at or after the last known index; a start does
not re-probe: it takes the name from the current counter and, when a file
with that name is already present, removes it before opening (so an
existing file at the chosen name can be destroyed); the counter never
decreases, and a fully successful start opens the log named by the current
counter and then increments it, so indices of successful starts are never
reused. -/
theorem c1_allocation_amended :
    (∀ (k : Nat) (fs : FS),
        k ≤ ESP.probe k fs ∧
        fexists fs (ESP.gn (ESP.probe k fs)) = false ∧
        (∀ i, k ≤ i → i < ESP.probe k fs → fexists fs (ESP.gn i) = true)) ∧
    (∀ (s : ESP.ESt) (e : ESP.StEnv),
        s.sd = true → e.beginOk = true → e.openOk = true → e.headerOk = true →
        (ESP.st s e).1.fn = s.fn + 1 ∧
        (ESP.st s e).1.df = some (ESP.gn s.fn) ∧
        ESP.Act.openLog (ESP.gn s.fn) ∈ (ESP.st s e).2) ∧
    (∀ (s : ESP.ESt) (e : ESP.StEnv), s.fn ≤ (ESP.st s e).1.fn) := by
  refine ⟨probe_correct, ?_, st_fn_le⟩
  intro s e hsd hb ho hh
  simp only [ESP.st, hsd, hb]
  simp only [Bool.true_eq_false, if_false, if_true, reduceIte]
  simp only [ESP.stOpen, ho, hh]
  simp only [Bool.true_eq_false, if_false, if_true, reduceIte]
  by_cases hex : fexists s.files (ESP.gn s.fn) = true <;>
    by_cases hdf : s.df.isSome = true <;>
      simp [hex, hdf]

/-- C1 counterexample: boot on an empty card, then a start whose header
write fails (the file is created, the handle closed, the counter left in
place), then a second start: the second start finds a file already present
under the chosen sequential name, and deletes it, refuting both that the
name chosen at a start is the first name not present and that opening a new
log never deletes an existing file on the medium. -/
theorem c1_counterexample :
    fexists ((ESP.st ESP.bootE ⟨true, true, true, false, true⟩).1.files)
        (ESP.gn ((ESP.st ESP.bootE ⟨true, true, true, false, true⟩).1.fn)) = true ∧
    ESP.Act.fsRemove (ESP.gn ((ESP.st ESP.bootE ⟨true, true, true, false, true⟩).1.fn)) ∈
      (ESP.st ((ESP.st ESP.bootE ⟨true, true, true, false, true⟩).1)
        ⟨true, true, true, true, true⟩).2 := by
  refine ⟨by decide, ?_⟩
  decide

/-- C1 witness: the amended theorem applied at the boot state with a fully
successful start. -/
theorem c1_witness :
    (ESP.st ESP.bootE ⟨true, true, true, true, true⟩).1.fn = ESP.bootE.fn + 1 ∧
    (ESP.st ESP.bootE ⟨true, true, true, true, true⟩).1.df = some (ESP.gn ESP.bootE.fn) ∧
    ESP.Act.openLog (ESP.gn ESP.bootE.fn) ∈
      (ESP.st ESP.bootE ⟨true, true, true, true, true⟩).2 :=
  c1_allocation_amended.2.1 ESP.bootE ⟨true, true, true, true, true⟩ rfl rfl rfl rfl

/-- C2 counterexample: on the ESP32 variant a start in standby with the
card mounted whose SD.open fails returns before m = 1 and run = 1 are ever
set: the session stays in standby rather than entering unlogged measuring,
refuting the claim for this variant. -/
theorem c2_counterexample :
    (ESP.st ESP.bootE ⟨true, true, false, true, true⟩).1.run = false ∧
    (ESP.st ESP.bootE ⟨true, true, false, true, true⟩).1.m = 0 := by
  refine ⟨by decide, by decide⟩

/-- C2 (amended): on the Arduino variants a start whose file open fails
still enters measuring with no log handle (degraded unlogged mode, the
failure only reported on the console); on the ESP32 variant an open failure
aborts the start and the session state is left unchanged (it refuses to
start), the ESP32 entering unlogged measuring only when the card is absent
altogether. -/
theorem c2_degraded_start_amended :
    (∀ s : W.WSt, s.sdCardPresent = true →
        (W.startMeasurement s false).1.currentMode = 2 ∧
        (W.startMeasurement s false).1.testRunning = true ∧
        (W.startMeasurement s false).1.dataFile = none) ∧
    (∀ (s : ESP.ESt) (e : ESP.StEnv),
        s.sd = true → e.beginOk = true → e.openOk = false →
        (ESP.st s e).1.run = s.run ∧ (ESP.st s e).1.m = s.m ∧
        (ESP.st s e).1.df = none) ∧
    (∀ (s : ESP.ESt) (e : ESP.StEnv), s.sd = false →
        (ESP.st s e).1.run = true ∧ (ESP.st s e).1.m = 1 ∧
        (ESP.st s e).1.df = s.df) := by
  refine ⟨?_, ?_, ?_⟩
  · intro s hsd
    simp [W.startMeasurement, hsd]
  · intro s e hsd hb ho
    simp only [ESP.st, hsd, hb]
    simp only [Bool.true_eq_false, if_false, if_true, reduceIte]
    simp only [ESP.stOpen, ho]
    by_cases hex : fexists s.files (ESP.gn s.fn) = true <;>
      by_cases hr : e.rootOk = true <;>
        simp [hex, hr]
  · intro s e hsd
    simp [ESP.st, hsd]

/-- C2 witness: the amended theorem applied at a concrete standby state of
the wired variant with the card present and a failing open. -/
theorem c2_witness :
    (W.startMeasurement ⟨0, false, false, true, 0, none, []⟩ false).1.currentMode = 2 ∧
    (W.startMeasurement ⟨0, false, false, true, 0, none, []⟩ false).1.testRunning = true ∧
    (W.startMeasurement ⟨0, false, false, true, 0, none, []⟩ false).1.dataFile = none :=
  c2_degraded_start_amended.1 ⟨0, false, false, true, 0, none, []⟩ rfl

/-- The wired accept loop discards every byte other than y and n and keeps
waiting, answering only on y or n. -/
theorem acceptLoopW_skip : ∀ (junk rest : List Char),
    (∀ c ∈ junk, c ≠ 'y' ∧ c ≠ 'n') →
    W.acceptLoopW (junk ++ 'y' :: rest) = some (true, rest) ∧
    W.acceptLoopW (junk ++ 'n' :: rest) = some (false, rest) := by
  intro junk
  induction junk with
  | nil =>
    intro rest _
    constructor <;> simp [W.acceptLoopW]
  | cons c cs ih =>
    intro rest h
    have hc := h c (by simp)
    have t := ih rest (fun d hd => h d (by simp [hd]))
    constructor <;> simp [W.acceptLoopW, hc.1, hc.2, t.1, t.2]

/-- C4 (amended): in the wired Arduino r flow the accept step loops until a
y or n byte, discarding (consuming but not answering on) every other byte;
y persists the proposed factor to EEPROM and n does not, but in both cases
the proposed factor becomes the active factor because setCalFactor runs
unconditionally after the loop.  In the ESP32 variant the accept step does
not loop: a leading y persists and applies the proposal, while a single
other byte (n included) is consumed, nothing is persisted, the previous
factor stays active, and the wizard exits without re-prompting. -/
theorem c4_accept_amended :
    (∀ junk rest : List Char, (∀ c ∈ junk, c ≠ 'y' ∧ c ≠ 'n') →
        W.acceptLoopW (junk ++ 'y' :: rest) = some (true, rest) ∧
        W.acceptLoopW (junk ++ 'n' :: rest) = some (false, rest)) ∧
    (∀ (eeprom newCal : ℚ) (ans : List Char) (saved : Bool) (rest : List Char),
        W.acceptLoopW ans = some (saved, rest) →
        W.calibrateFinish eeprom newCal ans =
          some (newCal, if saved then newCal else eeprom)) ∧
    (∀ (s : ESP.ESt) (c : ℚ) (acc : List ESP.Act) (rest btIn : List Tok),
        ESP.clAccept (Tok.ch 'y' :: rest) btIn s c acc =
          some ({ s with calFactor := c, prefsC := some c, m := 0 },
                acc ++ [ESP.bc s "New calibration factor saved"])) ∧
    (∀ (s : ESP.ESt) (c : ℚ) (acc : List ESP.Act) (z : Char), z ≠ 'y' →
        ESP.clAccept [Tok.ch z] [] s c acc = some ({ s with m := 0 }, acc)) := by
  refine ⟨acceptLoopW_skip, ?_, ?_, ?_⟩
  · intro eeprom newCal ans saved rest h
    rw [W.calibrateFinish, h]
    rfl
  · intro s c acc rest btIn
    cases btIn <;> rfl
  · intro s c acc z hz
    simp [ESP.clAccept, readTok, hz]

/-- C4 counterexample: in the wired calibrate flow, answering n to a
proposed factor of 500 leaves EEPROM untouched but still makes 500 the
active calibration factor (setCalFactor runs after the loop regardless),
so the previously active factor 217.84 does not remain in effect. -/
theorem c4_counterexample :
    W.calibrateFinish defaultCal 500 ['n'] = some (500, defaultCal) ∧
    (500 : ℚ) ≠ defaultCal := by
  refine ⟨rfl, ?_⟩
  norm_num [defaultCal]

/-- C4 witness: the amended theorem applied to one junk byte followed by an
answer. -/
theorem c4_witness :
    W.acceptLoopW (['a'] ++ 'y' :: []) = some (true, []) ∧
    W.acceptLoopW (['a'] ++ 'n' :: []) = some (false, []) :=
  c4_accept_amended.1 ['a'] [] (by decide)

/-- The part_000 mass loop re-prompts on a zero entry and accepts the first
nonzero entry, whatever its sign. -/
theorem btMassLoop_skip_zeros : ∀ (k : Nat) (q : ℚ) (btEn : Bool), q ≠ 0 →
    BT.btMassLoop (k + 1) (List.replicate k (Tok.num 0) ++ [Tok.num q]) [] btEn =
      some (q, [], [],
        [BT.BAct.outS "Known mass"] ++ (if btEn then [BT.BAct.outB "Known mass"] else [])) := by
  intro k
  induction k with
  | zero =>
    intro q btEn hq
    cases btEn <;> simp [BT.btMassLoop, parseTok, hq]
  | succ k ih =>
    intro q btEn hq
    have t := ih q btEn hq
    cases btEn <;> simp [BT.btMassLoop, parseTok] <;> exact t

/-- C5 (amended): on the ESP32 variant a non-positive mass entry does not
change any state but it aborts the wizard, which returns to the caller in
place of re-prompting; on the Arduino variants the mass loop re-prompts
only on an entry equal to zero and accepts any nonzero entry, negative
masses included. -/
theorem c5_mass_rejection_amended :
    (∀ (s : ESP.ESt) (newCal q : ℚ) (sRest btIn : List Tok), q ≤ 0 →
        ESP.cl s ⟨0, newCal, Tok.num q :: sRest, btIn⟩ =
          some (s,
            [ESP.bc s "Starting full calibration procedure",
             ESP.bc s "Remove all weight and send t when ready",
             ESP.bc s "Tare complete. Place known weight and enter weight in grams:",
             ESP.bc s "Invalid weight entered, calibration aborted"])) ∧
    (∀ (s : ESP.ESt) (q : ℚ) (sRest btIn : List Tok), q ≤ 0 →
        ESP.cc s (Tok.num q :: sRest) btIn =
          some (s,
            [ESP.bc s "Current calibration factor",
             ESP.bc s "Enter new calibration factor:",
             ESP.bc s "Invalid calibration factor, operation cancelled"])) ∧
    (∀ (k : Nat) (q : ℚ) (btEn : Bool), q ≠ 0 →
        BT.btMassLoop (k + 1) (List.replicate k (Tok.num 0) ++ [Tok.num q]) [] btEn =
          some (q, [], [],
            [BT.BAct.outS "Known mass"] ++
              (if btEn then [BT.BAct.outB "Known mass"] else []))) := by
  refine ⟨?_, ?_, btMassLoop_skip_zeros⟩
  · intro s newCal q sRest btIn hq
    simp [ESP.cl, ESP.clMassRead, parseTok, hq]
  · intro s q sRest btIn hq
    simp [ESP.cc, ESP.clMassRead, parseTok, hq]

/-- C5 counterexample: the part_000 mass loop accepts the entry -5 (any
nonzero value resumes), though -5 is at or below zero and the claim says it
must be rejected with the wizard kept waiting. -/
theorem c5_counterexample :
    BT.btMassLoop 1 [Tok.num (-5)] [] true =
      some (-5, [], [], [BT.BAct.outS "Known mass", BT.BAct.outB "Known mass"]) ∧
    (-5 : ℚ) ≤ 0 := by
  constructor
  · rfl
  · norm_num

/-- C5 witness: the amended theorem applied at a concrete aborting ESP32
run and a concrete accepted negative entry. -/
theorem c5_witness :
    ESP.cl ESP.bootE ⟨0, 100, Tok.num (-1) :: [], []⟩ =
      some (ESP.bootE,
        [ESP.bc ESP.bootE "Starting full calibration procedure",
         ESP.bc ESP.bootE "Remove all weight and send t when ready",
         ESP.bc ESP.bootE "Tare complete. Place known weight and enter weight in grams:",
         ESP.bc ESP.bootE "Invalid weight entered, calibration aborted"]) :=
  c5_mass_rejection_amended.1 ESP.bootE 100 (-1) [] [] (by norm_num)

/-- Removing one name leaves lookups of any other name unchanged. -/
theorem removeF_frame : ∀ (fs : FS) (n m : FName), m ≠ n →
    getF (removeF fs n) m = getF fs m ∧ fexists (removeF fs n) m = fexists fs m := by
  intro fs n m hmn
  have hnm : ¬(n = m) := fun h => hmn h.symm
  induction fs with
  | nil => exact ⟨rfl, rfl⟩
  | cons p ps ih =>
    by_cases hp : p.1 = n
    · have hpm : ¬(p.1 = m) := by
        rw [hp]; exact hnm
      constructor
      · simp [removeF, getF, List.filter_cons, hp, hpm, hnm, List.find?_cons] at ih ⊢
        exact ih.1
      · simp [removeF, fexists, List.filter_cons, hp, hpm, hnm] at ih ⊢
        exact ih.2
    · constructor
      · simp [removeF, getF, List.filter_cons, hp, List.find?_cons] at ih ⊢
        by_cases hq : p.1 = m
        · simp [hq]
        · simp [hq]
          exact ih.1
      · simp [removeF, fexists, List.filter_cons, hp] at ih ⊢
        by_cases hq : p.1 = m
        · simp [hq]
        · simp [hq]
          exact ih.2

/-- Writing one name leaves lookups of any other name unchanged. -/
theorem setF_frame : ∀ (fs : FS) (n m : FName) (content : String), m ≠ n →
    getF (setF fs n content) m = getF fs m ∧
    fexists (setF fs n content) m = fexists fs m := by
  intro fs n m content hmn
  have hnm : ¬(n = m) := fun h => hmn h.symm
  have h1 := removeF_frame fs n m hmn
  constructor
  · simp [setF, getF, List.find?_cons, hnm]
    have := h1.1
    simp [removeF, getF] at this
    exact this
  · simp [setF, fexists, hnm]
    have := h1.2
    simp [removeF, fexists] at this
    exact this

/-- A written file reads back exactly the content written. -/
theorem getF_setF_self : ∀ (fs : FS) (n : FName) (content : String),
    getF (setF fs n content) n = content := by
  intro fs n content
  simp [setF, getF, List.find?_cons]

/-- A written file exists. -/
theorem fexists_setF_self : ∀ (fs : FS) (n : FName) (content : String),
    fexists (setF fs n content) n = true := by
  intro fs n content
  simp [setF, fexists]

/-- A removed file no longer exists. -/
theorem fexists_removeF_self : ∀ (fs : FS) (n : FName),
    fexists (removeF fs n) n = false := by
  intro fs n
  induction fs with
  | nil => rfl
  | cons p ps ih =>
    by_cases hp : p.1 = n
    · simpa [removeF, fexists, List.filter_cons, hp] using ih
    · simpa [removeF, fexists, List.filter_cons, hp] using ih

/-- Removing a name right after writing it equals removing it from the
original directory. -/
theorem removeF_setF : ∀ (fs : FS) (n : FName) (content : String),
    removeF (setF fs n content) n = removeF fs n := by
  intro fs n content
  simp [removeF, setF, List.filter_cons, List.filter_filter]

/-- C7 (amended): the ESP32 self-test, when it passes, writes the fixed
marker to /test.txt, reads back byte for byte exactly the marker it wrote,
removes /test.txt, reports the content read, and leaves every other
directory entry (name and content) unchanged.  The Arduino testSDCard
writes and reads back its marker and leaves every other entry unchanged,
but it never deletes the temporary file: TEST_SD.TXT remains on the card
after a passing run. -/
theorem c7_selftest_amended :
    (∀ (s : ESP.ESt) (e : ESP.TsEnv),
        s.sd = true → e.openOk = true → e.readOk = true →
        (ESP.ts s e).1.files = removeF s.files FName.testTxt ∧
        fexists (ESP.ts s e).1.files FName.testTxt = false ∧
        (∀ n, n ≠ FName.testTxt →
          getF (ESP.ts s e).1.files n = getF s.files n ∧
          fexists (ESP.ts s e).1.files n = fexists s.files n) ∧
        ESP.Act.out true s.bt_on ("Read test content: " ++ ESP.marker) ∈ (ESP.ts s e).2) ∧
    (∀ (fs : FS) (present : Bool), present = true →
        (W.testSDCard fs present true true true).pass = true ∧
        fexists (W.testSDCard fs present true true true).files FName.testSd = true ∧
        getF (W.testSDCard fs present true true true).files FName.testSd =
          getF fs FName.testSd ++ W.marker2 ∧
        (∀ n, n ≠ FName.testSd →
          getF (W.testSDCard fs present true true true).files n = getF fs n ∧
          fexists (W.testSDCard fs present true true true).files n = fexists fs n)) := by
  constructor
  · intro s e hsd ho hr
    have hfiles : (ESP.ts s e).1.files =
        removeF (setF s.files FName.testTxt ESP.marker) FName.testTxt := by
      simp [ESP.ts, hsd, ho, hr]
    rw [hfiles, removeF_setF]
    refine ⟨rfl, fexists_removeF_self _ _, fun n hn => removeF_frame _ _ _ hn, ?_⟩
    have hacts : (ESP.ts s e).2 =
        [ESP.bc s "Starting SD card test...",
         ESP.bc s "SD card test completed successfully",
         ESP.bc s ("Read test content: " ++
           getF (setF s.files FName.testTxt ESP.marker) FName.testTxt)] := by
      simp [ESP.ts, hsd, ho, hr]
    rw [hacts, getF_setF_self]
    simp [ESP.bc]
  · intro fs present hp
    have hres : W.testSDCard fs present true true true =
        ⟨appendF fs FName.testSd W.marker2, true, true⟩ := by
      simp [W.testSDCard, hp]
    rw [hres]
    refine ⟨rfl, ?_, ?_, fun n hn => ?_⟩
    · exact fexists_setF_self _ _ _
    · exact getF_setF_self _ _ _
    · exact setF_frame _ _ _ _ hn

/-- C7 counterexample: a passing wired self-test on an empty card leaves
TEST_SD.TXT present in the directory: the temporary file is never deleted,
and the directory listing gains an entry, refuting the delete-and-leave-
unchanged claim. -/
theorem c7_counterexample :
    (W.testSDCard [] true true true true).pass = true ∧
    fexists (W.testSDCard [] true true true true).files FName.testSd = true := by
  exact ⟨rfl, rfl⟩

/-- C7 witness: the amended theorem applied at a concrete one-file
directory on the ESP32 variant. -/
theorem c7_witness :
    (ESP.ts { ESP.bootE with files := [(FName.tcsv 0, "x")] } ⟨true, true, true⟩).1.files =
      removeF [(FName.tcsv 0, "x")] FName.testTxt ∧
    fexists (ESP.ts { ESP.bootE with files := [(FName.tcsv 0, "x")] }
        ⟨true, true, true⟩).1.files FName.testTxt = false :=
  ⟨(c7_selftest_amended.1 { ESP.bootE with files := [(FName.tcsv 0, "x")] }
      ⟨true, true, true⟩ rfl rfl rfl).1,
   (c7_selftest_amended.1 { ESP.bootE with files := [(FName.tcsv 0, "x")] }
      ⟨true, true, true⟩ rfl rfl rfl).2.1⟩

/-- C8 (amended): delivering the same byte produces the identical state
transition whichever channel it arrives on (both dispatch branches call the
same processCommand), and this holds verbatim on the ESP32 variant where
even the outputs coincide; but on the part_000 variant the outputs are not
identical across channels: a bluetooth-origin byte additionally receives a
Received-command echo on the bluetooth channel. -/
theorem c8_transport_amended :
    (∀ (b : Char) (s : BT.BSt) (e : BT.BEnv),
        (BT.deliverSerial b s e).map Prod.fst = (BT.deliverBT b s e).map Prod.fst) ∧
    (∀ (b : Char) (s : BT.BSt) (e : BT.BEnv),
        (BT.deliverBT b s e).map Prod.snd =
          (BT.deliverSerial b s e).map
            (fun r => r.2 ++ [BT.BAct.outB ("Received command: " ++ b.toString)])) ∧
    (∀ (c : Char) (s : ESP.ESt) (e : ESP.CmdEnv),
        ESP.stepEv s (ESP.Ev.serialByte c e) = ESP.stepEv s (ESP.Ev.btByte c e)) := by
  refine ⟨?_, ?_, fun c s e => rfl⟩
  · intro b s e
    rcases h : BT.btProcessCommand b s e with _ | r <;>
      simp [BT.deliverSerial, BT.deliverBT, h]
  · intro b s e
    rcases h : BT.btProcessCommand b s e with _ | r <;>
      simp [BT.deliverSerial, BT.deliverBT, h]

/-- C8 counterexample: the byte p delivered on the wired serial channel and
the same byte delivered on the bluetooth channel of the same state produce
different broadcast output: the bluetooth delivery appends the echo line on
the bluetooth channel only, refuting identical broadcast output across
channels. -/
theorem c8_counterexample :
    (BT.deliverSerial 'p' BT.bts0 BT.bte0).map Prod.snd ≠
      (BT.deliverBT 'p' BT.bts0 BT.bte0).map Prod.snd := by
  decide

/-- Bracket checking distributes over concatenation. -/
theorem depthOk_append : ∀ (xs ys : List ESP.Act) (d : Nat),
    ESP.depthOk d (xs ++ ys) =
      (ESP.depthOk d xs && ESP.depthOk (ESP.depthAfter d xs) ys) := by
  intro xs
  induction xs with
  | nil => intro ys d; rfl
  | cons a xs ih =>
    intro ys d
    cases a <;> simp [ESP.depthOk, ESP.depthAfter, ih, Bool.and_assoc]

/-- Handle counting distributes over concatenation. -/
theorem depthAfter_append : ∀ (xs ys : List ESP.Act) (d : Nat),
    ESP.depthAfter d (xs ++ ys) = ESP.depthAfter (ESP.depthAfter d xs) ys := by
  intro xs
  induction xs with
  | nil => intro ys d; rfl
  | cons a xs ih =>
    intro ys d
    cases a <;> simp [ESP.depthAfter, ih]

/-- Actions without log opens or closes are bracket neutral. -/
theorem depthOk_nonLog : ∀ (xs : List ESP.Act) (d : Nat),
    xs.all ESP.nonLogA = true →
    ESP.depthOk d xs = true ∧ ESP.depthAfter d xs = d := by
  intro xs
  induction xs with
  | nil => intro d _; exact ⟨rfl, rfl⟩
  | cons a xs ih =>
    intro d h
    rw [List.all_cons, Bool.and_eq_true] at h
    obtain ⟨h1, h2⟩ := h
    cases a with
    | openLog n => simp [ESP.nonLogA] at h1
    | closeLog => simp [ESP.nonLogA] at h1
    | out b1 b2 m => exact ih d h2
    | fsRemove n => exact ih d h2
    | append n r => exact ih d h2
    | flush => exact ih d h2

/-- The open phase of st keeps the action trace serial-copied and its log
opens and closes well bracketed, given a bracket-neutral prefix. -/
theorem stOpen_inv : ∀ (s : ESP.ESt) (e : ESP.StEnv) (acc : List ESP.Act),
    acc.all ESP.serialOkA = true → acc.all ESP.nonLogA = true →
    ESP.stepInv s (ESP.stOpen s e acc) := by
  intro s e acc hs hn
  obtain ⟨hdep, haft⟩ := depthOk_nonLog acc (ESP.dfC s) hn
  refine ⟨?_, ?_, ?_⟩ <;>
    · simp only [ESP.stOpen, ESP.dfC]
      split_ifs <;>
        simp_all [depthOk_append, depthAfter_append, List.all_append,
          ESP.depthOk, ESP.depthAfter, ESP.dfC, ESP.serialOkA, ESP.nonLogA, ESP.bc]

/-- initSDCard only reports and re-probes: serial-copied output, no log or
append action, log handle and run flag untouched. -/
theorem initSDCard_inv : ∀ (s : ESP.ESt) (mo : Bool),
    (ESP.initSDCard s mo).2.all ESP.serialOkA = true ∧
    (ESP.initSDCard s mo).2.all ESP.nonLogA = true ∧
    (ESP.initSDCard s mo).2.all ESP.nonAppendA = true ∧
    (ESP.initSDCard s mo).1.df = s.df ∧
    (ESP.initSDCard s mo).1.run = s.run := by
  intro s mo
  simp only [ESP.initSDCard]
  split_ifs <;>
    simp [ESP.serialOkA, ESP.nonLogA, ESP.nonAppendA, ESP.bc]

/-- st keeps the trace serial-copied and its log handling well bracketed. -/
theorem st_inv : ∀ (s : ESP.ESt) (e : ESP.StEnv), ESP.stepInv s (ESP.st s e) := by
  intro s e
  simp only [ESP.st]
  split_ifs with h1 h2 h3
  · obtain ⟨ha, hb, hc, hdf, _⟩ := initSDCard_inv s e.mediaOk
    obtain ⟨hd, he⟩ := depthOk_nonLog (ESP.initSDCard s e.mediaOk).2 (ESP.dfC s) hb
    have hdfc : ESP.dfC (ESP.initSDCard s e.mediaOk).1 = ESP.dfC s := by
      simp [ESP.dfC, hdf]
    refine ⟨?_, ?_, ?_⟩ <;>
      simp [depthOk_append, depthAfter_append, List.all_append, ESP.depthOk,
        ESP.depthAfter, ESP.serialOkA, ESP.bc, ha, hd, he, hdfc]
  · obtain ⟨ha, hb, hc, hdf, _⟩ := initSDCard_inv s e.mediaOk
    have hinv := stOpen_inv (ESP.initSDCard s e.mediaOk).1 e
      ([ESP.bc s "WARNING: SD card reinitialization needed"] ++ (ESP.initSDCard s e.mediaOk).2)
      (by simp [List.all_append, ESP.serialOkA, ESP.bc, ha])
      (by simp [List.all_append, ESP.nonLogA, ESP.bc, hb])
    have hdfc : ESP.dfC (ESP.initSDCard s e.mediaOk).1 = ESP.dfC s := by
      simp [ESP.dfC, hdf]
    obtain ⟨i1, i2, i3⟩ := hinv
    exact ⟨i1, by rw [← hdfc]; exact i2, by rw [← hdfc]; exact i3⟩
  · exact stOpen_inv s e [] rfl rfl
  · refine ⟨?_, ?_, ?_⟩ <;>
      simp [ESP.depthOk, ESP.depthAfter, ESP.serialOkA, ESP.bc, ESP.dfC]

/-- sp closes at most one open handle, clears the run flag, and appends no
data row. -/
theorem sp_inv : ∀ s : ESP.ESt,
    ESP.stepInv s (ESP.sp s) ∧ (ESP.sp s).1.run = false ∧
    (ESP.sp s).2.all ESP.nonAppendA = true := by
  intro s
  simp only [ESP.stepInv, ESP.sp, ESP.dfC]
  cases hdf : s.df <;>
    simp [hdf, ESP.depthOk, ESP.depthAfter, ESP.serialOkA, ESP.nonAppendA, ESP.bc]

/-- One sampling pass keeps the trace serial-copied and bracket neutral,
and touches neither the run flag nor the log handle. -/
theorem tick_inv : ∀ (s : ESP.ESt) (fire : Bool),
    ESP.stepInv s (ESP.tick s fire) ∧
    (ESP.tick s fire).1.run = s.run ∧ (ESP.tick s fire).1.df = s.df := by
  intro s fire
  simp only [ESP.stepInv, ESP.tick]
  split_ifs <;> cases hdf : s.df <;>
    simp_all [ESP.depthOk, ESP.depthAfter, ESP.dfC, ESP.serialOkA, ESP.bc, hdf]

/-- A sampling pass in a stopped session produces no action at all. -/
theorem tick_quiet : ∀ (s : ESP.ESt) (fire : Bool), s.run = false →
    ESP.tick s fire = (s, []) := by
  intro s fire hrun
  simp [ESP.tick, hrun]

/-- The accept step of cl writes only serial-copied console text, no log or
append action, and leaves the handle and run flag alone. -/
theorem clAccept_inv : ∀ (sIn btIn : List Tok) (s : ESP.ESt) (c : ℚ)
    (acc : List ESP.Act) (r : ESP.ESt × List ESP.Act),
    acc.all ESP.serialOkA = true → acc.all ESP.nonLogA = true →
    acc.all ESP.nonAppendA = true →
    ESP.clAccept sIn btIn s c acc = some r →
    r.2.all ESP.serialOkA = true ∧ r.2.all ESP.nonLogA = true ∧
    r.2.all ESP.nonAppendA = true ∧ r.1.df = s.df ∧ r.1.run = s.run := by
  intro sIn btIn s c acc r hs hn ha h
  simp only [ESP.clAccept] at h
  split_ifs at h <;> cases h <;>
    simp [List.all_append, ESP.serialOkA, ESP.nonLogA, ESP.nonAppendA, ESP.bc, hs, hn, ha]

/-- cl writes only serial-copied console text, performs no log or append
action, and leaves the handle and run flag alone. -/
theorem cl_inv : ∀ (s : ESP.ESt) (e : ESP.ClEnv) (r : ESP.ESt × List ESP.Act),
    ESP.cl s e = some r →
    r.2.all ESP.serialOkA = true ∧ r.2.all ESP.nonLogA = true ∧
    r.2.all ESP.nonAppendA = true ∧ r.1.df = s.df ∧ r.1.run = s.run := by
  intro s e r h
  simp only [ESP.cl] at h
  rcases hmr : ESP.clMassRead (e.sIn.drop e.tareIters) (e.btIn.drop e.tareIters) with
    _ | ⟨ms, sIn1, btIn1⟩
  · rw [hmr] at h; cases h
  · rw [hmr] at h
    dsimp only at h
    split_ifs at h with hms
    · cases h
      simp [ESP.serialOkA, ESP.nonLogA, ESP.nonAppendA, ESP.bc]
    · refine clAccept_inv _ _ _ _ _ r ?_ ?_ ?_ h <;>
        simp [ESP.serialOkA, ESP.nonLogA, ESP.nonAppendA, ESP.bc]

/-- cc writes only serial-copied console text, performs no log or append
action, and leaves the handle and run flag alone. -/
theorem cc_inv : ∀ (s : ESP.ESt) (sIn btIn : List Tok) (r : ESP.ESt × List ESP.Act),
    ESP.cc s sIn btIn = some r →
    r.2.all ESP.serialOkA = true ∧ r.2.all ESP.nonLogA = true ∧
    r.2.all ESP.nonAppendA = true ∧ r.1.df = s.df ∧ r.1.run = s.run := by
  intro s sIn btIn r h
  simp only [ESP.cc] at h
  rcases hmr : ESP.clMassRead sIn btIn with _ | ⟨c, sIn1, btIn1⟩
  · rw [hmr] at h; cases h
  · rw [hmr] at h
    dsimp only at h
    split_ifs at h <;> cases h <;>
      simp [List.all_append, ESP.serialOkA, ESP.nonLogA, ESP.nonAppendA, ESP.bc]

/-- ts writes only serial-copied console text, performs no log or append
action, and leaves the handle and run flag alone. -/
theorem ts_inv : ∀ (s : ESP.ESt) (e : ESP.TsEnv),
    (ESP.ts s e).2.all ESP.serialOkA = true ∧ (ESP.ts s e).2.all ESP.nonLogA = true ∧
    (ESP.ts s e).2.all ESP.nonAppendA = true ∧ (ESP.ts s e).1.df = s.df ∧
    (ESP.ts s e).1.run = s.run := by
  intro s e
  simp only [ESP.ts]
  split_ifs <;> simp [ESP.serialOkA, ESP.nonLogA, ESP.nonAppendA, ESP.bc]

/-- The menu is serial-copied console text only. -/
theorem mnActs_inv : ∀ s : ESP.ESt,
    (ESP.mnActs s).all ESP.serialOkA = true ∧ (ESP.mnActs s).all ESP.nonLogA = true ∧
    (ESP.mnActs s).all ESP.nonAppendA = true := by
  intro s
  refine ⟨?_, ?_, ?_⟩ <;> rfl

/-- A step whose actions are bracket neutral and whose post state holds the
same handle satisfies the step invariants. -/
theorem stepInv_of_nonLog : ∀ (s s2 : ESP.ESt) (acts : List ESP.Act),
    acts.all ESP.serialOkA = true → acts.all ESP.nonLogA = true → s2.df = s.df →
    ESP.stepInv s (s2, acts) := by
  intro s s2 acts h1 h2 hdf
  obtain ⟨d1, d2⟩ := depthOk_nonLog acts (ESP.dfC s) h2
  refine ⟨h1, d1, ?_⟩
  rw [d2]
  simp [ESP.dfC, hdf]

/-- Prefixing bracket-neutral serial-copied actions preserves the step
invariants. -/
theorem stepInv_prepend : ∀ (s : ESP.ESt) (r : ESP.ESt × List ESP.Act)
    (pre : List ESP.Act),
    pre.all ESP.serialOkA = true → pre.all ESP.nonLogA = true →
    ESP.stepInv s r → ESP.stepInv s (r.1, pre ++ r.2) := by
  intro s r pre h1 h2 hi
  obtain ⟨i1, i2, i3⟩ := hi
  obtain ⟨d1, d2⟩ := depthOk_nonLog pre (ESP.dfC s) h2
  refine ⟨?_, ?_, ?_⟩
  · simp [List.all_append, h1, i1]
  · simp [depthOk_append, d1, d2, i2]
  · simp [depthAfter_append, d2, i3]

/-- Every command dispatch keeps the trace serial-copied and its log opens
and closes well bracketed at depth at most one. -/
theorem cm_inv : ∀ (c : Char) (s : ESP.ESt) (e : ESP.CmdEnv)
    (r : ESP.ESt × List ESP.Act),
    ESP.cm c s e = some r → ESP.stepInv s r := by
  intro c s e r h
  simp only [ESP.cm] at h
  split_ifs at h
  · cases h
    exact stepInv_of_nonLog s s _ (by simp [ESP.serialOkA, ESP.bc])
      (by simp [ESP.nonLogA, ESP.bc]) rfl
  · rcases Option.map_eq_some'.mp h with ⟨a, ha, hr⟩
    obtain ⟨a1, a2, _, a4, _⟩ := cl_inv s _ a ha
    subst hr
    exact stepInv_of_nonLog s a.1 _
      (by simp [List.all_append, ESP.serialOkA, ESP.bc, a1])
      (by simp [List.all_append, ESP.nonLogA, ESP.bc, a2]) a4
  · rcases Option.map_eq_some'.mp h with ⟨a, ha, hr⟩
    obtain ⟨a1, a2, _, a4, _⟩ := cc_inv s _ _ a ha
    subst hr
    exact stepInv_of_nonLog s a.1 _
      (by simp [List.all_append, ESP.serialOkA, ESP.bc, a1])
      (by simp [List.all_append, ESP.nonLogA, ESP.bc, a2]) a4
  · cases h
    exact stepInv_prepend s (ESP.st s e.stE) _
      (by simp [ESP.serialOkA, ESP.bc]) (by simp [ESP.nonLogA, ESP.bc])
      (st_inv s e.stE)
  · cases h
    exact stepInv_prepend s (ESP.sp s) _
      (by simp [ESP.serialOkA, ESP.bc]) (by simp [ESP.nonLogA, ESP.bc])
      (sp_inv s).1
  · cases h
    exact stepInv_of_nonLog s _ _ (by simp [ESP.serialOkA, ESP.bc])
      (by simp [ESP.nonLogA, ESP.bc]) rfl
  · cases h
    obtain ⟨t1, t2, _, t4, _⟩ := ts_inv s e.tsE
    exact stepInv_of_nonLog s _ _
      (by simp [List.all_append, ESP.serialOkA, ESP.bc, t1])
      (by simp [List.all_append, ESP.nonLogA, ESP.bc, t2]) t4
  · cases h
    exact stepInv_of_nonLog s _ _ (by simp [ESP.serialOkA, ESP.bc])
      (by simp [ESP.nonLogA, ESP.bc]) rfl
  · cases h
    obtain ⟨m1, m2, _⟩ := mnActs_inv s
    exact stepInv_of_nonLog s _ _
      (by simp [List.all_append, ESP.serialOkA, ESP.bc, m1])
      (by simp [List.all_append, ESP.nonLogA, ESP.bc, m2]) rfl
  · cases h
    exact stepInv_of_nonLog s s _ (by simp [ESP.serialOkA, ESP.bc])
      (by simp [ESP.nonLogA, ESP.bc]) rfl

/-- Every successful event step satisfies the step invariants. -/
theorem stepEv_inv : ∀ (s : ESP.ESt) (ev : ESP.Ev) (r : ESP.ESt × List ESP.Act),
    ESP.stepEv s ev = some r → ESP.stepInv s r := by
  intro s ev r h
  cases ev with
  | tick fire =>
    cases h
    exact (tick_inv s fire).1
  | serialByte c e => exact cm_inv c s e r h
  | btByte c e => exact cm_inv c s e r h

/-- Over any event list the log open and close actions stay well bracketed
at depth at most one, starting from the handle count of the initial
state. -/
theorem runEvs_depth : ∀ (evs : List ESP.Ev) (s : ESP.ESt),
    ESP.depthOk (ESP.dfC s) (ESP.runEvs s evs).2 = true := by
  intro evs
  induction evs with
  | nil => intro s; rfl
  | cons ev evs ih =>
    intro s
    rw [ESP.runEvs]
    cases hst : ESP.stepEv s ev with
    | none => rfl
    | some r =>
      obtain ⟨s1, acts⟩ := r
      obtain ⟨_, d1, d2⟩ := stepEv_inv s ev ⟨s1, acts⟩ hst
      dsimp only
      rw [depthOk_append, d1, d2]
      simp [ih s1]

/-- Over any event list every console write carries the wired-serial
copy. -/
theorem runEvs_serial : ∀ (evs : List ESP.Ev) (s : ESP.ESt),
    ((ESP.runEvs s evs).2).all ESP.serialOkA = true := by
  intro evs
  induction evs with
  | nil => intro s; rfl
  | cons ev evs ih =>
    intro s
    rw [ESP.runEvs]
    cases hst : ESP.stepEv s ev with
    | none => rfl
    | some r =>
      obtain ⟨s1, acts⟩ := r
      obtain ⟨d0, _, _⟩ := stepEv_inv s ev ⟨s1, acts⟩ hst
      dsimp only
      rw [List.all_append, d0]
      simp [ih s1]

/-- In a stopped session every command other than the start byte keeps the
run flag off and appends no data row. -/
theorem cm_quiet : ∀ (c : Char) (s : ESP.ESt) (e : ESP.CmdEnv)
    (r : ESP.ESt × List ESP.Act),
    s.run = false → c ≠ 's' → ESP.cm c s e = some r →
    r.1.run = false ∧ r.2.all ESP.nonAppendA = true := by
  intro c s e r hrun hc h
  simp only [ESP.cm] at h
  split_ifs at h with h1 h2 h3 h4 h5 h6 h7 h8
  · cases h
    exact ⟨hrun, by simp [ESP.nonAppendA, ESP.bc]⟩
  · rcases Option.map_eq_some'.mp h with ⟨a, ha, hr⟩
    obtain ⟨_, _, a3, _, a5⟩ := cl_inv s _ a ha
    subst hr
    exact ⟨by rw [a5]; exact hrun,
      by simp [List.all_append, ESP.nonAppendA, ESP.bc, a3]⟩
  · rcases Option.map_eq_some'.mp h with ⟨a, ha, hr⟩
    obtain ⟨_, _, a3, _, a5⟩ := cc_inv s _ _ a ha
    subst hr
    exact ⟨by rw [a5]; exact hrun,
      by simp [List.all_append, ESP.nonAppendA, ESP.bc, a3]⟩
  · cases h
    exact ⟨(sp_inv s).2.1,
      by simp [List.all_append, ESP.nonAppendA, ESP.bc, (sp_inv s).2.2]⟩
  · cases h
    exact ⟨hrun, by simp [ESP.nonAppendA, ESP.bc]⟩
  · cases h
    obtain ⟨_, _, t3, _, t5⟩ := ts_inv s e.tsE
    exact ⟨by rw [t5]; exact hrun,
      by simp [List.all_append, ESP.nonAppendA, ESP.bc, t3]⟩
  · cases h
    exact ⟨hrun, by simp [ESP.nonAppendA, ESP.bc]⟩
  · cases h
    obtain ⟨_, _, m3⟩ := mnActs_inv s
    exact ⟨hrun, by simp [List.all_append, ESP.nonAppendA, ESP.bc, m3]⟩
  · cases h
    exact ⟨hrun, by simp [ESP.nonAppendA, ESP.bc]⟩

/-- In a stopped session every non-start event keeps the run flag off and
appends no data row. -/
theorem stepEv_quiet : ∀ (s : ESP.ESt) (ev : ESP.Ev) (r : ESP.ESt × List ESP.Act),
    s.run = false → ESP.isStartEv ev = false → ESP.stepEv s ev = some r →
    r.1.run = false ∧ r.2.all ESP.nonAppendA = true := by
  intro s ev r hrun hst h
  cases ev with
  | tick fire =>
    cases h
    rw [tick_quiet s fire hrun]
    exact ⟨hrun, rfl⟩
  | serialByte c e =>
    have hc : c ≠ 's' := by
      simp [ESP.isStartEv] at hst
      exact hst
    exact cm_quiet c s e r hrun hc h
  | btByte c e =>
    have hc : c ≠ 's' := by
      simp [ESP.isStartEv] at hst
      exact hst
    exact cm_quiet c s e r hrun hc h

/-- After a stop, for as long as no start byte arrives, the run flag stays
off and no data row is ever appended. -/
theorem runEvs_quiet : ∀ (evs : List ESP.Ev) (s : ESP.ESt),
    s.run = false → (∀ ev ∈ evs, ESP.isStartEv ev = false) →
    (ESP.runEvs s evs).1.run = false ∧
    ((ESP.runEvs s evs).2).all ESP.nonAppendA = true := by
  intro evs
  induction evs with
  | nil => intro s h _; exact ⟨h, rfl⟩
  | cons ev evs ih =>
    intro s hrun hall
    rw [ESP.runEvs]
    cases hst : ESP.stepEv s ev with
    | none => exact ⟨hrun, rfl⟩
    | some r =>
      obtain ⟨s1, acts⟩ := r
      obtain ⟨q1, q2⟩ := stepEv_quiet s ev ⟨s1, acts⟩ hrun (hall ev (by simp)) hst
      obtain ⟨i1, i2⟩ := ih s1 q1 (fun d hd => hall d (by simp [hd]))
      dsimp only
      rw [List.all_append, q2]
      simp [i1, i2]

/-- C3: over every event sequence the data-log open and close actions are
well bracketed at nesting depth at most one starting from the handle count
of the initial state, so at most one log handle is open at any time; the
stop command always clears the run flag; and from any stopped state, for as
long as no start byte arrives on either channel, the run flag stays off and
no data row is appended to any log. -/
theorem c3_single_log_and_stop :
    (∀ (s : ESP.ESt) (evs : List ESP.Ev),
        ESP.depthOk (ESP.dfC s) (ESP.runEvs s evs).2 = true) ∧
    (∀ (s : ESP.ESt) (e : ESP.CmdEnv),
        ∃ r, ESP.cm 'x' s e = some r ∧ r.1.run = false) ∧
    (∀ (s : ESP.ESt) (evs : List ESP.Ev), s.run = false →
        (∀ ev ∈ evs, ESP.isStartEv ev = false) →
        (ESP.runEvs s evs).1.run = false ∧
        ((ESP.runEvs s evs).2).all ESP.nonAppendA = true) := by
  refine ⟨fun s evs => runEvs_depth evs s, ?_, fun s evs => runEvs_quiet evs s⟩
  intro s e
  exact ⟨((ESP.sp s).1,
    [ESP.bc s "Received command"] ++ [ESP.bc s "Stopping test..."] ++ (ESP.sp s).2),
    rfl, (sp_inv s).2.1⟩

/-- C3 witness: the combined theorem applied at the boot state over a
sampling tick and a stop byte. -/
theorem c3_witness :
    (ESP.runEvs ESP.bootE [ESP.Ev.tick true]).1.run = false ∧
    ((ESP.runEvs ESP.bootE [ESP.Ev.tick true]).2).all ESP.nonAppendA = true :=
  c3_single_log_and_stop.2.2 ESP.bootE [ESP.Ev.tick true] rfl (by decide)

/-- C10: in every reachable state the wired serial channel stays enabled:
every console write of every step carries the wired-serial copy, the b
command changes only the bluetooth flag (every other state field is kept),
and a byte arriving on wired serial is always dispatched to the command
handler whatever the bluetooth flag is. -/
theorem c10_wired_serial_invariant :
    (∀ (s : ESP.ESt) (evs : List ESP.Ev),
        ((ESP.runEvs s evs).2).all ESP.serialOkA = true) ∧
    (∀ (s : ESP.ESt) (e : ESP.CmdEnv),
        ∃ a, ESP.cm 'b' s e = some ({ s with bt_on := !s.bt_on }, a)) ∧
    (∀ (s : ESP.ESt) (c : Char) (e : ESP.CmdEnv),
        ESP.stepEv s (ESP.Ev.serialByte c e) = ESP.cm c s e) := by
  refine ⟨fun s evs => runEvs_serial evs s, ?_, fun s c e => rfl⟩
  intro s e
  exact ⟨[ESP.bc s "Received command"] ++
    [ESP.bc { s with bt_on := !s.bt_on } "Bluetooth toggled"], rfl⟩
